import Mathlib

/-!
# Verification of the trimesh GLTF 2.0 codec (`trimesh/exchange/gltf.py`)

A shallow embedding of the GLTF/GLB exporter and importer.  Bytes are `Nat`
values below 256, byte strings are `List Nat`, and little-endian machine
integers are explicit (`% 2^32`).  Float32 vertex/normal components are
represented by their 4-byte bit patterns (a `Nat < 2^32`): the code only moves
these bit patterns between numpy arrays and buffers (`astype(float32).tobytes()`
on export, `np.frombuffer('<f4')` on import), so the byte-level pipeline is
captured exactly; no float arithmetic is modelled.  JSON numbers that are only
carried around (node matrices, material factors) are modelled as `Rat`.

Python exceptions are modelled by `Err`: `Err.fmt` is a `ValueError`
(the spec's `FormatError`), `Err.assert_` an `AssertionError`,
`Err.idx` an `IndexError`/`KeyError`, and `Err.fuel` marks exhaustion of the
explicit iteration bound that stands in for a loop the source runs unboundedly.

External collaborators (the JSON codec, `util.unique_id`, `scene.graph.to_gltf`,
PIL image decoding, `rendering.path_to_vertexlist`) are parameters of the
embedded functions, as the specification treats them as external interfaces.
-/

/-! ## Little-endian byte encoding -/

/-- The `k`-byte little-endian encoding of `n` (as `numpy.tobytes` with a
little-endian dtype); values wrap modulo `256^k` exactly as an `astype` cast. -/
def bytesLE : Nat → Nat → List Nat
  | 0, _ => []
  | k + 1, n => (n % 256) :: bytesLE k (n / 256)

/-- Little-endian decoding of a byte list (as `np.frombuffer`). -/
def leOfBytes : List Nat → Nat
  | [] => 0
  | b :: t => b + 256 * leOfBytes t

theorem bytesLE_length (k n : Nat) : (bytesLE k n).length = k := by
  induction k generalizing n with
  | zero => rfl
  | succ k ih => simp [bytesLE, ih]

theorem leOfBytes_bytesLE (k n : Nat) : leOfBytes (bytesLE k n) = n % 256 ^ k := by
  induction k generalizing n with
  | zero => simp [bytesLE, leOfBytes, Nat.mod_one]
  | succ k ih =>
    simp only [bytesLE, leOfBytes, ih]
    rw [pow_succ, mul_comm (256 ^ k) 256, Nat.mod_mul]

/-- Split a list into consecutive chunks of `k` elements (the shape `numpy`
gives a flat byte buffer).  Implemented with a structural fuel argument so the
kernel can evaluate it; `chunkList` always supplies sufficient fuel. -/
def chunkListAux (k : Nat) : Nat → List α → List (List α)
  | _, [] => []
  | 0, _ => []
  | fuel + 1, l => l.take k :: chunkListAux k fuel (l.drop k)

def chunkList (k : Nat) (l : List α) : List (List α) :=
  if k = 0 then [] else chunkListAux k l.length l

theorem chunkListAux_flatten (k : Nat) (hk : 0 < k) (rows : List (List α))
    (h : ∀ r ∈ rows, r.length = k) :
    ∀ fuel, rows.flatten.length ≤ fuel → chunkListAux k fuel rows.flatten = rows := by
  induction rows with
  | nil => intro fuel _; cases fuel <;> rfl
  | cons r rest ih =>
    intro fuel hfuel
    have hr : r.length = k := h r (by simp)
    have hrest : ∀ x ∈ rest, x.length = k := fun x hx => h x (by simp [hx])
    have hne : (r :: rest).flatten ≠ [] := by
      have : 0 < (r :: rest).flatten.length := by
        simp only [List.flatten_cons, List.length_append, hr]; omega
      exact List.ne_nil_of_length_pos this
    match fuel, hfuel with
    | fuel + 1, hfuel =>
      have htake : ((r :: rest).flatten).take k = r := by
        simp only [List.flatten_cons]
        rw [← hr, List.take_left]
      have hdrop : ((r :: rest).flatten).drop k = rest.flatten := by
        simp only [List.flatten_cons]
        rw [← hr, List.drop_left]
      cases hflat : (r :: rest).flatten with
      | nil => exact absurd hflat hne
      | cons x xs =>
        simp only [chunkListAux, ← hflat, htake, hdrop]
        have hlen : rest.flatten.length ≤ fuel := by
          have : (r :: rest).flatten.length = r.length + rest.flatten.length := by
            simp [List.flatten_cons]
          omega
        rw [ih hrest fuel hlen]
    | 0, hfuel =>
      exact absurd hfuel (by
        simp only [not_le]
        exact List.length_pos_of_ne_nil hne)

theorem chunkList_flatten (k : Nat) (hk : 0 < k) (rows : List (List α))
    (h : ∀ r ∈ rows, r.length = k) : chunkList k rows.flatten = rows := by
  unfold chunkList
  rw [if_neg (Nat.pos_iff_ne_zero.mp hk)]
  exact chunkListAux_flatten k hk rows h _ le_rfl

/-! ## `_byte_pad` -/

/-- `_byte_pad`: pad a byte chunk with zero bytes to a multiple of `bound`
(GLTF wants 4-byte alignment).  Returns the input unchanged when already
aligned. -/
def byte_pad (data : List Nat) (bound : Nat := 4) : List Nat :=
  if data.length % bound ≠ 0 then
    data ++ List.replicate (bound - data.length % bound) 0
  else
    data

theorem byte_pad_length_mod (data : List Nat) (bound : Nat) (hb : 0 < bound) :
    (byte_pad data bound).length % bound = 0 := by
  unfold byte_pad
  by_cases h : data.length % bound = 0
  · simp [h]
  · have hlt : data.length % bound < bound := Nat.mod_lt _ hb
    have hdm := Nat.div_add_mod data.length bound
    simp only [h, ne_eq, not_false_eq_true, if_true, List.length_append,
      List.length_replicate]
    have h1 : data.length + (bound - data.length % bound)
        = bound * (data.length / bound + 1) := by
      rw [Nat.mul_add, Nat.mul_one]
      omega
    rw [h1, Nat.mul_mod_right]

theorem byte_pad_of_aligned (data : List Nat) (bound : Nat)
    (h : data.length % bound = 0) : byte_pad data bound = data := by
  simp [byte_pad, h]

/-! ## Magic numbers and static type tables (`_magic`, `_types`, `_shapes`) -/

/-- `_magic['gltf'] = 1179937895` -/
def magic_gltf : Nat := 1179937895

/-- `_magic['json'] = 1313821514` -/
def magic_json : Nat := 1313821514

/-- `_magic['bin'] = 5130562` (also written `0x004E4942` in `export_glb`) -/
def magic_bin : Nat := 5130562

/-- Byte width of each GLTF componentType code (`_types` composed with
`np.dtype(...).itemsize`); `none` models the `KeyError` an unknown code raises. -/
def typeSize : Nat → Option Nat
  | 5120 => some 1
  | 5121 => some 1
  | 5122 => some 2
  | 5123 => some 2
  | 5125 => some 4
  | 5126 => some 4
  | _ => none

/-- GLTF accessor `type` strings (the keys of `_shapes`). -/
inductive AccType where
  | SCALAR | VEC2 | VEC3 | VEC4 | MAT2 | MAT3 | MAT4
  deriving DecidableEq, Repr

/-- Numpy reshape targets (`_shapes` values): `-1` (flat), `(-1, w)`, `(n, n)`. -/
inductive NpShape where
  | flat
  | vec (w : Nat)
  | mat (n : Nat)
  deriving DecidableEq, Repr

/-- `_shapes`: accessor type string to numpy shape. -/
def shapeOf : AccType → NpShape
  | .SCALAR => .flat
  | .VEC2 => .vec 2
  | .VEC3 => .vec 3
  | .VEC4 => .vec 4
  | .MAT2 => .mat 2
  | .MAT3 => .mat 3
  | .MAT4 => .mat 4

/-- `np.abs(np.product(shape))`: components per logical element
(`SCALAR` has shape `-1`, whose absolute product is 1). -/
def perCount : NpShape → Nat
  | .flat => 1
  | .vec w => w
  | .mat n => n * n

/-! ## Python exceptions -/

/-- The exceptions the embedded code can raise.  `fmt` is `ValueError` (the
specification's `FormatError`), `assert_` is `AssertionError`, `idx` is
`IndexError`/`KeyError`, and `fuel` marks exhaustion of the explicit iteration
bound standing in for a source loop with no such bound. -/
inductive Err where
  | fmt | assert_ | idx | fuel
  deriving DecidableEq, Repr

instance [DecidableEq ε] [DecidableEq α] : DecidableEq (Except ε α) := fun a b =>
  match a, b with
  | .ok x, .ok y =>
    if h : x = y then isTrue (by rw [h]) else isFalse (by simp [h])
  | .error x, .error y =>
    if h : x = y then isTrue (by rw [h]) else isFalse (by simp [h])
  | .ok _, .error _ => isFalse (by simp)
  | .error _, .ok _ => isFalse (by simp)

/-! ## The GLTF document tree -/

/-- An accessor record as written/read by the codec.  The advisory `min`/`max`
bounds the exporter writes are metadata the importer never reads; they are not
tracked here (computing them would need float comparison on vertex data). -/
structure Accessor where
  bufferView : Nat
  componentType : Nat
  count : Nat
  type_ : AccType
  byteOffset : Option Nat
  normalized : Bool
  deriving DecidableEq, Repr

structure BufferView where
  buffer : Nat
  byteOffset : Nat
  byteLength : Nat
  deriving DecidableEq, Repr

structure BufferRec where
  byteLength : Nat
  uri : Option String
  deriving DecidableEq, Repr

/-- The nested `pbrMetallicRoughness` sub-object of a material. -/
structure Pbr where
  baseColorFactor : List Rat
  metallicFactor : Rat
  roughnessFactor : Rat
  deriving DecidableEq, Repr

/-- A document material record (the exporter only ever writes the
`pbrMetallicRoughness` block). -/
structure Material where
  pbrMetallicRoughness : Pbr
  deriving DecidableEq, Repr

/-- One drawable primitive inside a mesh record. -/
structure Prim where
  position : Option Nat
  color0 : Option Nat
  normal : Option Nat
  texcoord0 : Option Nat
  indices : Option Nat
  mode : Option Nat
  material : Option Nat
  deriving DecidableEq, Repr

/-- A mesh record; `extras_units` models the optional `extras: {units: ...}`. -/
structure GMesh where
  name : Option String
  primitives : List Prim
  extras_units : Option String
  deriving DecidableEq, Repr

/-- A node record.  An absent `children` key and an empty children list are
behaviourally identical in `_read_buffers`, so children is a plain list.  The
`rotation`/`translation`/`scale` fields are parsed but never composed by the
source (the composing code is commented out), so they are not tracked. -/
structure Node where
  name : Option String
  matrix : Option (List Rat)
  children : List Nat
  mesh : Option Nat
  deriving DecidableEq, Repr

structure SceneRec where
  nodes : List Nat
  deriving DecidableEq, Repr

/-- The JSON document tree (`header` on import, `tree` on export).  The static
`asset` metadata block is constant and read by nothing, so it is not tracked.
`materials?` is `none` when the document has no `materials` key at all. -/
structure Doc where
  scene : Nat
  scenes : List SceneRec
  accessors : List Accessor
  bufferViews : List BufferView
  buffers : List BufferRec
  meshes : List GMesh
  materials? : Option (List Material)
  nodes : List Node
  deriving DecidableEq, Repr

/-! ## External scene objects (the exporter's input) -/

/-- A triangle mesh as the exporter consumes it: vertex float32 bit patterns,
uint32 faces, optional per-vertex RGBA uint8 colors (`visual.kind` is not
`None` exactly when `vertexColors` is `some`; a `TextureVisuals` has already
been converted by `to_color`), the most common color (`visual.main_color`),
optional units, and vertex normals (float32 bit patterns). -/
structure Trimesh where
  vertices : List (Nat × Nat × Nat)
  faces : List (Nat × Nat × Nat)
  vertexColors : Option (List (Nat × Nat × Nat × Nat))
  mainColor : List Nat
  units : Option String
  vertexNormals : List (Nat × Nat × Nat)
  deriving DecidableEq, Repr

/-- A path as the exporter consumes it, reduced to what the code reads from
`rendering.path_to_vertexlist(path)` (an external collaborator):
`vxcount = vxlist[0]` and `vxdata = vxlist[4][1]` as float32 bit patterns.
(Named `TPath` because `Path` is taken by Mathlib; the source class is
`trimesh.Path2D`/`Path3D`.) -/
structure TPath where
  vxcount : Nat
  vxdata : List Nat
  units : Option String
  deriving DecidableEq, Repr

inductive Geom where
  | mesh (m : Trimesh)
  | path (p : TPath)
  deriving DecidableEq, Repr

/-- A scene: its ordered geometry name-to-object mapping (`scene.geometry`,
an ordered dict, so names are unique). -/
structure Scene where
  geometry : List (String × Geom)
  deriving DecidableEq, Repr

/-- The output of the external `scene.graph.to_gltf(mesh_index)` collaborator,
merged into the tree by `tree.update(nodes)`: the flattened node list plus the
scene list and default-scene index it provides. -/
structure GraphGltf where
  nodes : List Node
  scenes : List SceneRec
  scene : Nat
  deriving DecidableEq, Repr

/-! ## Python dict operations -/

/-- `d[k] = v` on a Python dict: replace in place if the key exists, else
append at the end (insertion order is preserved). -/
def dictSet [DecidableEq α] : List (α × β) → α → β → List (α × β)
  | [], k, v => [(k, v)]
  | (k', v') :: t, k, v =>
    if k' = k then (k, v) :: t else (k', v') :: dictSet t k v

/-- `d[k]` on a Python dict (`none` models a `KeyError`). -/
def dictGet [DecidableEq α] : List (α × β) → α → Option β
  | [], _ => none
  | (k', v') :: t, k => if k' = k then some v' else dictGet t k

/-! ## Export: byte encodings of geometry data -/

/-- `mesh.faces.astype(uint32).tobytes()`: flat little-endian uint32 dump of
the `(n, 3)` face array. -/
def facesBytes (m : Trimesh) : List Nat :=
  m.faces.flatMap fun f => bytesLE 4 f.1 ++ bytesLE 4 f.2.1 ++ bytesLE 4 f.2.2

/-- `mesh.vertices.astype(float32).tobytes()`: the float32 bit patterns of the
`(n, 3)` vertex array, dumped little-endian. -/
def vertBytes (m : Trimesh) : List Nat :=
  m.vertices.flatMap fun v => bytesLE 4 v.1 ++ bytesLE 4 v.2.1 ++ bytesLE 4 v.2.2

/-- `visual.vertex_colors.astype(uint8).tobytes()`: RGBA bytes. -/
def colorBytes (cols : List (Nat × Nat × Nat × Nat)) : List Nat :=
  cols.flatMap fun c =>
    bytesLE 1 c.1 ++ bytesLE 1 c.2.1 ++ bytesLE 1 c.2.2.1 ++ bytesLE 1 c.2.2.2

/-- `mesh.vertex_normals.astype(float32).tobytes()`. -/
def normalBytes (m : Trimesh) : List Nat :=
  m.vertexNormals.flatMap fun v => bytesLE 4 v.1 ++ bytesLE 4 v.2.1 ++ bytesLE 4 v.2.2

/-- `vxlist[4][1].astype(float32).tobytes()` for a path. -/
def pathBytes (p : TPath) : List Nat :=
  p.vxdata.flatMap fun v => bytesLE 4 v

/-! ## Export: `_mesh_to_material` and `_default_material` -/

/-- `_mesh_to_material`: a PBR material from the most common color of the mesh.
The source divides the uint8 color by 255 after a float32 cast; the quotient is
modelled as an exact rational (the float32 rounding of this advisory value is
not modelled; nothing reads it back). -/
def mesh_to_material (m : Trimesh) (metallic : Rat := 0) (rough : Rat := 0) :
    Material :=
  { pbrMetallicRoughness :=
      { baseColorFactor := m.mainColor.map fun c => (c : Rat) / 255
        metallicFactor := metallic
        roughnessFactor := rough } }

/-- `_default_material`. -/
def default_material : Material :=
  { pbrMetallicRoughness :=
      { baseColorFactor := [0, 0, 0, 0], metallicFactor := 0, roughnessFactor := 0 } }

/-! ## Export: `_create_gltf_structure` and friends -/

/-- The tree under construction, before `buffers`/`bufferViews` are attached
and before an empty `materials` array is popped. -/
structure TreeB where
  scene : Nat
  scenes : List SceneRec
  accessors : List Accessor
  meshes : List GMesh
  materials : List Material
  nodes : List Node
  deriving DecidableEq, Repr

/-- The tree as `_create_gltf_structure` returns it: the `materials` key has
been removed when no geometry produced a material. -/
structure TreeOut where
  scene : Nat
  scenes : List SceneRec
  accessors : List Accessor
  meshes : List GMesh
  materials? : Option (List Material)
  nodes : List Node
  deriving DecidableEq, Repr

/-- `_append_mesh`: append one triangle mesh to the tree and the buffer-item
list.  Translated statement by statement; the in-place edits of the last
appended mesh record are resolved into one record built with the same index
arithmetic (`len(tree['accessors'])`, `len(buffer_items)`,
`len(tree['materials'])` at each original assignment point). -/
def append_mesh (mesh : Trimesh) (name : String) (t : TreeB)
    (buffer_items : List (List Nat)) (include_normals : Bool) :
    TreeB × List (List Nat) :=
  let a0 := t.accessors.length
  let i0 := buffer_items.length
  -- index accessor (componentType 5125, SCALAR) + faces chunk
  let idxAcc : Accessor :=
    { bufferView := i0, componentType := 5125, count := mesh.faces.length * 3
      type_ := .SCALAR, byteOffset := none, normalized := false }
  -- vertex accessor (componentType 5126, VEC3) + vertex chunk
  let posAcc : Accessor :=
    { bufferView := i0 + 1, componentType := 5126, count := mesh.vertices.length
      type_ := .VEC3, byteOffset := some 0, normalized := false }
  match mesh.vertexColors with
  | some cols =>
    -- vertex color accessor (componentType 5121, VEC4, normalized) + chunk
    let colAcc : Accessor :=
      { bufferView := i0 + 2, componentType := 5121, count := mesh.vertices.length
        type_ := .VEC4, byteOffset := some 0, normalized := true }
    let prim : Prim :=
      { position := some (a0 + 1), color0 := some (a0 + 2)
        normal := if include_normals then some (a0 + 3) else none
        texcoord0 := none, indices := some a0, mode := some 4, material := none }
    let nrmAcc : Accessor :=
      { bufferView := i0 + 3, componentType := 5126, count := mesh.vertices.length
        type_ := .VEC3, byteOffset := some 0, normalized := false }
    ({ t with
        meshes := t.meshes ++
          [{ name := some name, primitives := [prim], extras_units := mesh.units }]
        accessors := t.accessors ++ [idxAcc, posAcc, colAcc] ++
          (if include_normals then [nrmAcc] else []) },
     buffer_items ++
       [byte_pad (facesBytes mesh), byte_pad (vertBytes mesh),
        byte_pad (colorBytes cols)] ++
       (if include_normals then [byte_pad (normalBytes mesh)] else []))
  | none =>
    -- no vertex colors: reference a derived material instead
    let prim : Prim :=
      { position := some (a0 + 1), color0 := none
        normal := if include_normals then some (a0 + 2) else none
        texcoord0 := none, indices := some a0, mode := some 4
        material := some t.materials.length }
    let nrmAcc : Accessor :=
      { bufferView := i0 + 2, componentType := 5126, count := mesh.vertices.length
        type_ := .VEC3, byteOffset := some 0, normalized := false }
    ({ t with
        meshes := t.meshes ++
          [{ name := some name, primitives := [prim], extras_units := mesh.units }]
        accessors := t.accessors ++ [idxAcc, posAcc] ++
          (if include_normals then [nrmAcc] else [])
        materials := t.materials ++ [mesh_to_material mesh] },
     buffer_items ++ [byte_pad (facesBytes mesh), byte_pad (vertBytes mesh)] ++
       (if include_normals then [byte_pad (normalBytes mesh)] else []))

/-- `_append_path`: append a GL_LINES path (one position accessor, one default
black material, one buffer chunk). -/
def append_path (p : TPath) (name : String) (t : TreeB)
    (buffer_items : List (List Nat)) : TreeB × List (List Nat) :=
  let prim : Prim :=
    { position := some t.accessors.length, color0 := none, normal := none
      texcoord0 := none, indices := none, mode := some 1
      material := some t.materials.length }
  let posAcc : Accessor :=
    { bufferView := buffer_items.length, componentType := 5126, count := p.vxcount
      type_ := .VEC3, byteOffset := some 0, normalized := false }
  ({ t with
      meshes := t.meshes ++
        [{ name := some name, primitives := [prim], extras_units := p.units }]
      accessors := t.accessors ++ [posAcc]
      materials := t.materials ++ [default_material] },
   buffer_items ++ [byte_pad (pathBytes p)])

/-- The geometry loop of `_create_gltf_structure`. -/
def create_items (include_normals : Bool) :
    List (String × Geom) → TreeB → List (List Nat) → TreeB × List (List Nat)
  | [], t, items => (t, items)
  | (name, Geom.mesh m) :: rest, t, items =>
    let r := append_mesh m name t items include_normals
    create_items include_normals rest r.1 r.2
  | (name, Geom.path p) :: rest, t, items =>
    let r := append_path p name t items
    create_items include_normals rest r.1 r.2

/-- `_create_gltf_structure`: build the document tree and the ordered buffer
item list for a scene.  The initial tree (`scene: 0`, `scenes: [{nodes: [0]}]`)
is overwritten by `tree.update(scene.graph.to_gltf(...))`, whose output `g` is
an external input here.  After the loop an empty `materials` array is removed
(`tree.pop('materials')`). -/
def create_gltf_structure (scene : Scene) (g : GraphGltf)
    (include_normals : Bool := false) : TreeOut × List (List Nat) :=
  let t0 : TreeB :=
    { scene := g.scene, scenes := g.scenes, accessors := [], meshes := []
      materials := [], nodes := g.nodes }
  let r := create_items include_normals scene.geometry t0 []
  ({ scene := r.1.scene, scenes := r.1.scenes, accessors := r.1.accessors
     meshes := r.1.meshes
     materials? := if r.1.materials = [] then none else some r.1.materials
     nodes := r.1.nodes },
   r.2)

/-! ## Export: GLB container (`export_glb`) -/

/-- The bufferView loop of `export_glb`: one view per buffer item, consecutive
offsets into buffer `bufIdx`. -/
def buildViews (bufIdx : Nat) : List (List Nat) → Nat → List BufferView
  | [], _ => []
  | it :: rest, pos =>
    { buffer := bufIdx, byteOffset := pos, byteLength := it.length } ::
      buildViews bufIdx rest (pos + it.length)

/-- `content += (4 - ((len(content) + 20) % 4)) * ' '`: pad the serialized JSON
with ASCII spaces (byte 32) so the binary chunk that follows the 20 fixed bytes
is aligned.  Note the source adds 4 spaces when already aligned. -/
def padContent (json : List Nat) : List Nat :=
  json ++ List.replicate (4 - (json.length + 20) % 4) 32

/-- The byte-assembly tail of `export_glb`: 12-byte file header and JSON chunk
header (built as one 5-word uint32 array, passed through `_byte_pad`), the
padded JSON text, the 2-word binary chunk header, and the buffer data. -/
def glbAssemble (json : List Nat) (buffer_data : List Nat) : List Nat :=
  let content := padContent json
  let header := byte_pad
    (bytesLE 4 magic_gltf ++ bytesLE 4 2 ++
     bytesLE 4 (content.length + buffer_data.length + 28) ++
     bytesLE 4 content.length ++ bytesLE 4 magic_json)
  let bin_header := byte_pad (bytesLE 4 buffer_data.length ++ bytesLE 4 magic_bin)
  header ++ content ++ bin_header ++ buffer_data

/-- The document `export_glb` serializes, together with the joined buffer data:
the built tree plus one GLB buffer record and one bufferView per buffer item. -/
def export_glb_tree (scene : Scene) (g : GraphGltf) (include_normals : Bool) :
    Doc × List Nat :=
  let r := create_gltf_structure scene g include_normals
  let buffer_data := r.2.flatten
  ({ scene := r.1.scene, scenes := r.1.scenes, accessors := r.1.accessors
     bufferViews := buildViews 0 r.2 0
     buffers := [{ byteLength := buffer_data.length, uri := none }]
     meshes := r.1.meshes, materials? := r.1.materials?, nodes := r.1.nodes },
   buffer_data)

/-- `export_glb`, parameterized by the external JSON serializer `jsonDump`
(`json.dumps(...).encode('utf-8')`). -/
def export_glb (jsonDump : Doc → List Nat) (scene : Scene) (g : GraphGltf)
    (include_normals : Bool := false) : List Nat :=
  let r := export_glb_tree scene g include_normals
  glbAssemble (jsonDump r.1) r.2

/-! ## Export: GLTF directory (`export_gltf`) -/

/-- `range(0, stop, 2)`. -/
def range2 (stop : Nat) : List Nat :=
  (List.range ((stop + 1) / 2)).map (· * 2)

/-- The per-geometry loop of `export_gltf`: for each `(i, name)` pair zipped
from `range(0, len(buffer_items), 2)` and the scene's geometry names, slice two
buffer items, emit their bufferViews, and store them in the file map as
`mesh_<name>.bin`.  Indexing `buffer_items[i + j]` out of range is the
`IndexError` the source would raise. -/
def gltfLoop (items : List (List Nat)) :
    List (Nat × String) → List BufferRec → List BufferView →
    List (String × List Nat) →
    Except Err (List BufferRec × List BufferView × List (String × List Nat))
  | [], bufs, views, files => .ok (bufs, views, files)
  | (i, name) :: rest, bufs, views, files =>
    match items[i]?, items[i + 1]? with
    | some it0, some it1 =>
      let views' := views ++
        [{ buffer := bufs.length, byteOffset := 0, byteLength := it0.length },
         { buffer := bufs.length, byteOffset := it0.length,
           byteLength := it1.length }]
      let data := it0 ++ it1
      let bname := "mesh_" ++ name ++ ".bin"
      gltfLoop items rest
        (bufs ++ [{ byteLength := data.length, uri := some bname }])
        views' (dictSet files bname data)
    | _, _ => .error .idx

/-- `export_gltf`: the directory export, a map of file names to bytes,
parameterized by the external JSON serializer. -/
def export_gltf (jsonDump : Doc → List Nat) (scene : Scene) (g : GraphGltf) :
    Except Err (List (String × List Nat)) :=
  let r := create_gltf_structure scene g
  match gltfLoop r.2 ((range2 r.2.length).zip (scene.geometry.map (·.1)))
      [] [] [] with
  | .error e => .error e
  | .ok (bufs, views, files) =>
    let doc : Doc :=
      { scene := r.1.scene, scenes := r.1.scenes, accessors := r.1.accessors
        bufferViews := views, buffers := bufs, meshes := r.1.meshes
        materials? := r.1.materials?, nodes := r.1.nodes }
    .ok (dictSet files "model.gltf" (jsonDump doc))

/-! ## Import: GLB container (`load_glb`, lines 196-245) -/

/-- The chunk loop of `load_glb`: while fewer than `total` bytes are consumed,
read an 8-byte chunk header; stop silently when fewer than 8 bytes remain;
require the BIN chunk magic and a complete payload.  The source's `while` loop
has no iteration bound; `fuel` supplies one (`readChunks` passes enough fuel
that `Err.fuel` is unreachable, since each iteration consumes at least 8
bytes). -/
def readChunksAux (stream : List Nat) (total : Nat) :
    Nat → Nat → List (List Nat) → Except Err (List (List Nat))
  | 0, pos, acc => if pos < total then .error .fuel else .ok acc
  | fuel + 1, pos, acc =>
    if pos < total then
      let hd := (stream.drop pos).take 8
      if hd.length < 8 then .ok acc
      else
        let chunk_length := leOfBytes (hd.take 4)
        let chunk_type := leOfBytes (hd.drop 4)
        if chunk_type ≠ magic_bin then .error .fmt
        else
          let chunk_data := (stream.drop (pos + 8)).take chunk_length
          if chunk_data.length ≠ chunk_length then .error .fmt
          else readChunksAux stream total fuel (pos + 8 + chunk_length)
            (acc ++ [chunk_data])
    else .ok acc

def readChunks (stream : List Nat) (total pos : Nat) (acc : List (List Nat)) :
    Except Err (List (List Nat)) :=
  readChunksAux stream total (total + 1) pos acc

/-- The container-parsing half of `load_glb` (everything before
`_read_buffers`), parameterized by the external JSON parser `jsonParse`
(`json.loads` after UTF-8 decoding; `none` is a parse failure, which raises
`json.JSONDecodeError`, a `ValueError`).  Reads the first 20 bytes as five
little-endian uint32 words; `np.frombuffer` raises `ValueError` when the read
byte count is not a multiple of 4, indexing a missing word raises `IndexError`,
and unpacking `head[2:]` into three names raises `ValueError` when fewer than
five words exist — each modelled on the corresponding branch. -/
def load_glb_chunks (jsonParse : List Nat → Option Doc) (stream : List Nat) :
    Except Err (Doc × List (List Nat)) :=
  let head_data := stream.take 20
  if head_data.length % 4 ≠ 0 then .error .fmt
  else
    let head := (chunkList 4 head_data).map leOfBytes
    match head[0]? with
    | none => .error .idx
    | some w0 =>
      if w0 ≠ magic_gltf then .error .fmt
      else
        match head[1]? with
        | none => .error .idx
        | some w1 =>
          if w1 ≠ 2 then .error .fmt
          else
            match head[2]?, head[3]?, head[4]? with
            | some total, some chunk_length, some chunk_type =>
              if chunk_type ≠ magic_json then .error .fmt
              else
                let json_data := (stream.drop 20).take chunk_length
                match jsonParse json_data with
                | none => .error .fmt
                | some doc =>
                  match readChunks stream total (20 + json_data.length) [] with
                  | .ok bufs => .ok (doc, bufs)
                  | .error e => .error e
            | _, _, _ => .error .fmt

/-! ## Import: `_read_buffers` -/

/-- A numpy array as an accessor resolves to: the reshape target plus the flat
list of component values (uint values, or float32 bit patterns). -/
structure GArr where
  shape : NpShape
  comps : List Nat
  deriving DecidableEq, Repr

/-- `len(array)` on a reshaped numpy array: the size of the first axis. -/
def GArr.pyLen (a : GArr) : Nat :=
  match a.shape with
  | .flat => a.comps.length
  | .vec w => a.comps.length / w
  | .mat n => n

/-- The bufferView loop of `_read_buffers`: slice
`buffers[view.buffer][byteOffset : byteOffset+byteLength]` and assert the slice
has the declared length (an `AssertionError` when the buffer is short). -/
def resolveViews (views : List BufferView) (buffers : List (List Nat)) :
    Except Err (List (List Nat)) :=
  match views with
  | [] => .ok []
  | v :: rest =>
    match buffers[v.buffer]? with
    | none => .error .idx
    | some data =>
      let slice := (data.drop v.byteOffset).take v.byteLength
      if slice.length = v.byteLength then
        match resolveViews rest buffers with
        | .ok vs => .ok (slice :: vs)
        | .error e => .error e
      else .error .assert_

/-- One iteration of the accessor loop, up to and including the `reshape`:
compute the byte span `[start, start + itemsize*count*perCount)` of the view,
reinterpret it (`np.frombuffer` fails when the span length is not a multiple
of the item size), and reshape (failing when the component count does not fit
the target shape).  The trailing `assert len(array) == count` is applied
separately in `resolveAccessor`. -/
def accessorRaw (a : Accessor) (views : List (List Nat)) : Except Err GArr :=
  match views[a.bufferView]? with
  | none => .error .idx
  | some data =>
    match typeSize a.componentType with
    | none => .error .idx
    | some itemsize =>
      let shape := shapeOf a.type_
      let start := a.byteOffset.getD 0
      let length := itemsize * a.count * perCount shape
      let span := (data.drop start).take length
      if span.length % itemsize = 0 then
        let comps := (chunkList itemsize span).map leOfBytes
        match shape with
        | .flat => .ok { shape := .flat, comps := comps }
        | .vec w =>
          if comps.length % w = 0 then .ok { shape := .vec w, comps := comps }
          else .error .fmt
        | .mat n =>
          if comps.length = n * n then .ok { shape := .mat n, comps := comps }
          else .error .fmt
      else .error .fmt

/-- One accessor resolution including the final
`assert len(array) == a['count']`. -/
def resolveAccessor (a : Accessor) (views : List (List Nat)) : Except Err GArr :=
  match accessorRaw a views with
  | .error e => .error e
  | .ok arr => if arr.pyLen = a.count then .ok arr else .error .assert_

/-- The accessor loop of `_read_buffers`. -/
def resolveAccessors (accs : List Accessor) (views : List (List Nat)) :
    Except Err (List GArr) :=
  match accs with
  | [] => .ok []
  | a :: rest =>
    match resolveAccessor a views with
    | .error e => .error e
    | .ok arr =>
      match resolveAccessors rest views with
      | .ok arrs => .ok (arr :: arrs)
      | .error e => .error e

/-- A flattened PBR material as `_parse_materials` constructs it
(`PBRMaterial(**pbr)`). -/
structure PBRMaterial where
  baseColorFactor : List Rat
  metallicFactor : Rat
  roughnessFactor : Rat
  deriving DecidableEq, Repr

/-- `_parse_materials`: without PIL (the external image decoder) return `[]`;
otherwise flatten each document material's `pbrMetallicRoughness` block into
constructor keywords.  Texture-reference substitution decodes images through
PIL and is outside the byte-level model (no exported document in this file
references textures). -/
def parse_materials (pil : Bool) (header : Doc) : List PBRMaterial :=
  if pil then
    (header.materials?.getD []).map fun m =>
      { baseColorFactor := m.pbrMetallicRoughness.baseColorFactor
        metallicFactor := m.pbrMetallicRoughness.metallicFactor
        roughnessFactor := m.pbrMetallicRoughness.roughnessFactor }
  else []

/-- The kwargs `_read_buffers` assembles per triangle primitive.  `visual`
stores the raw `TEXCOORD_0` array together with the resolved material (the
float `uv[:, 1] = 1.0 - uv[:, 1]` flip and the `TextureVisuals` construction
are external float/object operations, not byte-level ones). -/
structure MeshKwargs where
  units : Option String
  faces : List (List Nat)
  vertices : GArr
  visual : Option (GArr × PBRMaterial)
  deriving DecidableEq, Repr

/-- Group a flat component list into rows of three, as
`access[...].reshape((-1, 3))`; fails (`ValueError`) when not divisible. -/
def reshapeRows3 (comps : List Nat) : Except Err (List (List Nat)) :=
  if comps.length % 3 = 0 then .ok (chunkList 3 comps) else .error .fmt

/-- The primitive loop body of the mesh loop: skip non-triangle primitives,
then build kwargs from the indices and POSITION accessors, attach UV data when
present (warning and skipping when no material index accompanies it), and name
the result (`name + '_' + str(j)` only when the mesh has several primitives). -/
def load_prims (access : List GArr) (mats : List PBRMaterial)
    (meshName : Option String) (nprims : Nat) (metaUnits : Option String) :
    Nat → List Prim → Except Err (List (String × MeshKwargs))
  | _, [] => .ok []
  | j, p :: rest =>
    if p.mode.getD 4 ≠ 4 then
      load_prims access mats meshName nprims metaUnits (j + 1) rest
    else
      match p.indices with
      | none => .error .idx
      | some idxA =>
        match access[idxA]? with
        | none => .error .idx
        | some idxArr =>
          match reshapeRows3 idxArr.comps with
          | .error e => .error e
          | .ok faces =>
            match p.position with
            | none => .error .idx
            | some posA =>
              match access[posA]? with
              | none => .error .idx
              | some vertArr =>
                let visual? : Except Err (Option (GArr × PBRMaterial)) :=
                  match p.texcoord0 with
                  | none => .ok none
                  | some uvA =>
                    match p.material with
                    | none => .ok none  -- log.warning('texcoord without material!')
                    | some mi =>
                      match access[uvA]?, mats[mi]? with
                      | some uvArr, some mat => .ok (some (uvArr, mat))
                      | _, _ => .error .idx
                match visual? with
                | .error e => .error e
                | .ok vis =>
                  let name0 := meshName.getD "GLTF_geometry"
                  let name := if nprims > 1 then name0 ++ "_" ++ toString j
                    else name0
                  let kwargs : MeshKwargs :=
                    { units := metaUnits, faces := faces, vertices := vertArr
                      visual := vis }
                  match load_prims access mats meshName nprims metaUnits
                      (j + 1) rest with
                  | .ok pairs => .ok ((name, kwargs) :: pairs)
                  | .error e => .error e

/-- The mesh loop of `_read_buffers`: an ordered dict of geometry name to
kwargs (later inserts of an existing name replace its value) together with
`mesh_prim` (the generated names per mesh index, a `defaultdict(list)`
represented positionally). -/
def load_meshes (access : List GArr) (mats : List PBRMaterial) :
    List GMesh → List (String × MeshKwargs) →
    Except Err (List (String × MeshKwargs) × List (List String))
  | [], dict => .ok (dict, [])
  | m :: rest, dict =>
    match load_prims access mats m.name m.primitives.length m.extras_units 0
        m.primitives with
    | .error e => .error e
    | .ok pairs =>
      let dict' := pairs.foldl (fun d p => dictSet d p.1 p.2) dict
      match load_meshes access mats rest dict' with
      | .error e => .error e
      | .ok r => .ok (r.1, pairs.map (·.1) :: r.2)

/-! ## Import: scene-graph reconstruction (`_read_buffers`, lines 727-816) -/

/-- A key of the `names` dict: node indexes are `int` keys; the line
`names[base_frame] = base_frame` later adds a `str` key.  Python never equates
an `int` key with a `str` key, which the sum type captures. -/
abbrev NKey := Nat ⊕ String

/-- The node-name map: each node's declared `name`, else its stringified
index, keyed by the integer node index. -/
def buildNodeNames (nodes : List Node) : List (NKey × String) :=
  nodes.enum.map fun p => (Sum.inl p.1, p.2.name.getD (toString p.1))

/-- `base_frame = 'world'; if base_frame in names: base_frame = <random>`.
The membership test is against the dict's keys; `rand` models
`str(int(np.random.random() * 1e10))`. -/
def chooseBaseFrame (names : List (NKey × String)) (rand : String) : String :=
  if names.any (fun kv => kv.1 = Sum.inr "world") then rand else "world"

/-- One edge of the reconstructed transform graph (the kwargs passed to
`scene.graph.update`). -/
structure Edge where
  frame_from : String
  frame_to : String
  matrix : List (List Rat)
  geometry : Option String
  deriving DecidableEq, Repr

/-- `np.eye(4)`. -/
def eye4 : List (List Rat) :=
  [[1, 0, 0, 0], [0, 1, 0, 0], [0, 0, 1, 0], [0, 0, 0, 1]]

/-- `np.array(child['matrix']).reshape((4, 4)).T`, or `np.eye(4)` when the
node has no matrix; reshape raises `ValueError` unless exactly 16 entries. -/
def matrixOf (m : Option (List Rat)) : Except Err (List (List Rat)) :=
  match m with
  | none => .ok eye4
  | some l =>
    if l.length = 16 then
      .ok ((List.range 4).map fun i => (List.range 4).map fun j => l.getD (4 * j + i) 0)
    else .error .fmt

/-- The body of the traversal loop for one popped `(a, b)` pair: the edge
kwargs for the parent-to-child transform, always appended once, plus — when
the child node references a mesh — one copy per generated geometry name with
`geometry` set and `frame_to` replaced by
`name + '_' + unique_id(length=6, increment=len(graph)).upper()`.
`uid` models the external `util.unique_id(length=6, increment=·).upper()`;
`glen` is `len(graph)` before this node's edges are appended, so the k-th
instance edge is minted with increment `glen + 1 + k`. -/
def processNode (uid : Nat → String) (names : List (NKey × String))
    (primLists : List (List String)) (child : Node) (a : NKey) (b : Nat)
    (glen : Nat) : Except Err (List Edge) :=
  match dictGet names a with
  | none => .error .idx
  | some ffrom =>
    match dictGet names (Sum.inl b) with
    | none => .error .idx
    | some fto =>
      match matrixOf child.matrix with
      | .error e => .error e
      | .ok mat =>
        let structE : Edge :=
          { frame_from := ffrom, frame_to := fto, matrix := mat, geometry := none }
        match child.mesh with
        | none => .ok [structE]
        | some mi =>
          let geoms := primLists.getD mi []
          .ok (structE :: geoms.enum.map fun kn =>
            { frame_from := ffrom, frame_to := kn.2 ++ "_" ++ uid (glen + 1 + kn.1)
              matrix := mat, geometry := some kn.2 })

/-- The traversal loop: pop a `(parent, childIndex)` pair from the right end
of the deque, push the child's children, append this node's edges.  The
source's `while` loop does not terminate on cyclic `children`; `fuel` bounds
the number of iterations (`Err.fuel` = the bound ran out). -/
def traverseNodes (uid : Nat → String) (nodes : List Node)
    (names : List (NKey × String)) (primLists : List (List String)) :
    Nat → List (NKey × Nat) → List Edge → Except Err (List Edge)
  | fuel, queue, graph =>
    match queue.getLast? with
    | none => .ok graph
    | some (a, b) =>
      match fuel with
      | 0 => .error .fuel
      | fuel + 1 =>
        match nodes[b]? with
        | none => .error .idx
        | some child =>
          let queue' := queue.dropLast ++ child.children.map fun i => (Sum.inl b, i)
          match processNode uid names primLists child a b graph.length with
          | .error e => .error e
          | .ok edges =>
            traverseNodes uid nodes names primLists fuel queue' (graph ++ edges)

/-- The scene-construction kwargs `_read_buffers` returns. -/
structure SceneKwargs where
  geometry : List (String × MeshKwargs)
  graph : List Edge
  base_frame : String
  deriving DecidableEq, Repr

/-- `_read_buffers`: resolve views and accessors, build materials and the
geometry map, then reconstruct the transform graph from the default scene's
roots.  `pil`, `uid`, `rand` and `fuel` parameterize the external
collaborators and the loop bound (see `parse_materials`, `processNode`,
`chooseBaseFrame`, `traverseNodes`). -/
def read_buffers (pil : Bool) (uid : Nat → String) (rand : String) (fuel : Nat)
    (header : Doc) (buffers : List (List Nat)) : Except Err SceneKwargs :=
  match resolveViews header.bufferViews buffers with
  | .error e => .error e
  | .ok views =>
    match resolveAccessors header.accessors views with
    | .error e => .error e
    | .ok access =>
      let materials := parse_materials pil header
      match load_meshes access materials header.meshes [] with
      | .error e => .error e
      | .ok (meshes, primLists) =>
        let names := buildNodeNames header.nodes
        let base_frame := chooseBaseFrame names rand
        let names' := dictSet names (Sum.inr base_frame) base_frame
        match header.scenes[header.scene]? with
        | none => .error .idx
        | some sceneRec =>
          let queue := sceneRec.nodes.map fun r => ((Sum.inr base_frame : NKey), r)
          match traverseNodes uid header.nodes names' primLists fuel queue [] with
          | .error e => .error e
          | .ok graph =>
            .ok { geometry := meshes, graph := graph, base_frame := base_frame }

/-- `load_glb`: parse the GLB container, then hand the JSON header and binary
chunks to `_read_buffers`. -/
def load_glb (jsonParse : List Nat → Option Doc) (pil : Bool)
    (uid : Nat → String) (rand : String) (fuel : Nat) (stream : List Nat) :
    Except Err SceneKwargs :=
  match load_glb_chunks jsonParse stream with
  | .error e => .error e
  | .ok (header, buffers) => read_buffers pil uid rand fuel header buffers

/-! ## Concrete example values (used to instantiate theorems) -/

/-- A one-triangle mesh with per-vertex colors. -/
def exMesh : Trimesh :=
  { vertices := [(0, 1065353216, 3212836864)], faces := [(0, 0, 0)]
    vertexColors := some [(10, 20, 30, 255)], mainColor := [255, 0, 0, 255]
    units := some "m", vertexNormals := [] }

/-- A one-triangle mesh without vertex colors. -/
def exMeshNC : Trimesh :=
  { vertices := [(0, 0, 0)], faces := [(0, 0, 0)]
    vertexColors := none, mainColor := [0, 128, 255, 255]
    units := none, vertexNormals := [] }

/-- A second colored mesh with different data. -/
def exMesh2 : Trimesh :=
  { vertices := [(7, 8, 9)], faces := [(0, 0, 0)]
    vertexColors := some [(1, 2, 3, 4)], mainColor := [0, 0, 0, 0]
    units := none, vertexNormals := [] }

/-- A small path (two line-list vertices). -/
def exPath : TPath :=
  { vxcount := 2, vxdata := [0, 0, 0, 0, 0, 1065353216], units := none }

/-- A single root node referencing mesh 0. -/
def exGraph : GraphGltf :=
  { nodes := [{ name := some "n0", matrix := none, children := [], mesh := some 0 }]
    scenes := [{ nodes := [0] }], scene := 0 }

/-- A deterministic stand-in for `util.unique_id(length=6, ...).upper()`. -/
def exUid : Nat → String :=
  fun n => if n % 2 = 0 then "AAAAA" ++ toString (n % 10) else "BBBBB" ++ toString (n % 10)

/-! ## Flattened component views of mesh data (for stating the round trip) -/

/-- The face array flattened to components, as the exported uint32 stream
contains it. -/
def facesFlat (m : Trimesh) : List Nat :=
  m.faces.flatMap fun f => [f.1, f.2.1, f.2.2]

/-- The vertex array flattened to float32 bit-pattern components. -/
def vertsFlat (m : Trimesh) : List Nat :=
  m.vertices.flatMap fun v => [v.1, v.2.1, v.2.2]

/-- The RGBA colors flattened to byte components. -/
def colorsFlat (cols : List (Nat × Nat × Nat × Nat)) : List Nat :=
  cols.flatMap fun c => [c.1, c.2.1, c.2.2.1, c.2.2.2]

/-- Well-formedness of a colored triangle mesh: faces and vertex bit patterns
fit in uint32, colors are present, one RGBA byte quadruple per vertex (the
shape the source asserts). -/
def Trimesh.wfColored (m : Trimesh) : Prop :=
  (∀ x ∈ facesFlat m, x < 4294967296) ∧
  (∀ x ∈ vertsFlat m, x < 4294967296) ∧
  m.vertexColors.isSome = true ∧
  (m.vertexColors.getD []).length = m.vertices.length ∧
  (∀ x ∈ colorsFlat (m.vertexColors.getD []), x < 256)

instance (m : Trimesh) : Decidable m.wfColored := by
  unfold Trimesh.wfColored
  infer_instance

/-- A geometry that is a well-formed colored triangle mesh. -/
def Geom.coloredWf : Geom → Prop
  | .mesh m => m.wfColored
  | .path _ => False

instance (g : Geom) : Decidable g.coloredWf := by
  cases g <;> (unfold Geom.coloredWf; infer_instance)

/-- The kwargs the importer reconstructs for an exported colored mesh: the
same faces (as rows of three), the same vertex bit patterns (a VEC3 array),
the same units, and no texture visual. -/
def roundtripKwargs (m : Trimesh) : MeshKwargs :=
  { units := m.units
    faces := m.faces.map fun f => [f.1, f.2.1, f.2.2]
    vertices := { shape := .vec 3, comps := vertsFlat m }
    visual := none }

/-- Per-geometry expected import result (the path case is unreachable under
`Geom.coloredWf` and holds a placeholder). -/
def geomKwargs : Geom → MeshKwargs
  | .mesh m => roundtripKwargs m
  | .path _ =>
    { units := none, faces := [], vertices := { shape := .flat, comps := [] }
      visual := none }

/-! ## Expected export shapes for colored-mesh scenes (`include_normals=False`) -/

/-- The three buffer chunks `_append_mesh` emits for a colored mesh. -/
def meshItemsC (m : Trimesh) : List (List Nat) :=
  [byte_pad (facesBytes m), byte_pad (vertBytes m),
   byte_pad (colorBytes (m.vertexColors.getD []))]

def expItemsC : List (String × Geom) → List (List Nat)
  | [] => []
  | (_, Geom.mesh m) :: rest => meshItemsC m ++ expItemsC rest
  | (_, Geom.path _) :: rest => expItemsC rest

/-- The three accessors `_append_mesh` emits for a colored mesh, with
bufferView indexes starting at `i`. -/
def meshAccsC (m : Trimesh) (i : Nat) : List Accessor :=
  [{ bufferView := i, componentType := 5125, count := m.faces.length * 3
     type_ := .SCALAR, byteOffset := none, normalized := false },
   { bufferView := i + 1, componentType := 5126, count := m.vertices.length
     type_ := .VEC3, byteOffset := some 0, normalized := false },
   { bufferView := i + 2, componentType := 5121, count := m.vertices.length
     type_ := .VEC4, byteOffset := some 0, normalized := true }]

def expAccsC : List (String × Geom) → Nat → List Accessor
  | [], _ => []
  | (_, Geom.mesh m) :: rest, i => meshAccsC m i ++ expAccsC rest (i + 3)
  | (_, Geom.path _) :: rest, i => expAccsC rest i

/-- The mesh record `_append_mesh` emits for a colored mesh, with accessor
indexes starting at `a`. -/
def meshRecC (m : Trimesh) (name : String) (a : Nat) : GMesh :=
  { name := some name
    primitives := [{ position := some (a + 1), color0 := some (a + 2)
                     normal := none, texcoord0 := none, indices := some a
                     mode := some 4, material := none }]
    extras_units := m.units }

def expMeshesC : List (String × Geom) → Nat → List GMesh
  | [], _ => []
  | (n, Geom.mesh m) :: rest, a => meshRecC m n a :: expMeshesC rest (a + 3)
  | (_, Geom.path _) :: rest, a => expMeshesC rest a

/-- The arrays the importer resolves from a colored mesh's three accessors. -/
def meshArrsC (m : Trimesh) : List GArr :=
  [{ shape := .flat, comps := facesFlat m },
   { shape := .vec 3, comps := vertsFlat m },
   { shape := .vec 4, comps := colorsFlat (m.vertexColors.getD []) }]

def expArrsC : List (String × Geom) → List GArr
  | [] => []
  | (_, Geom.mesh m) :: rest => meshArrsC m ++ expArrsC rest
  | (_, Geom.path _) :: rest => expArrsC rest

/-- The geometry dict accumulated across the import mesh loop for an exported
colored-mesh scene. -/
def expDictC : List (String × Geom) → List (String × MeshKwargs) →
    List (String × MeshKwargs)
  | [], d => d
  | (n, Geom.mesh m) :: rest, d => expDictC rest (dictSet d n (roundtripKwargs m))
  | (_, Geom.path _) :: rest, d => expDictC rest d

/-- A geometry that is a triangle mesh carrying per-vertex color. -/
def Geom.hasVertexColors : Geom → Prop
  | .mesh m => m.vertexColors.isSome = true
  | .path _ => False

instance (g : Geom) : Decidable g.hasVertexColors := by
  cases g <;> (unfold Geom.hasVertexColors; infer_instance)

/-- "Every triangle mesh carries per-vertex color", per geometry: a mesh must
be colored, a path is unconstrained. -/
def Geom.meshColoredIf : Geom → Prop
  | .mesh m => m.vertexColors.isSome = true
  | .path _ => True

instance (g : Geom) : Decidable g.meshColoredIf := by
  cases g <;> (unfold Geom.meshColoredIf; infer_instance)

/-- A geometry that is a triangle mesh without per-vertex color. -/
def Geom.uncoloredMesh : Geom → Prop
  | .mesh m => m.vertexColors = none
  | .path _ => False

instance (g : Geom) : Decidable g.uncoloredMesh := by
  cases g <;> (unfold Geom.uncoloredMesh; infer_instance)

/-- The buffer chunks `_create_gltf_structure` emits for a scene of uncolored
triangle meshes (`include_normals=False`): an index chunk and a vertex chunk
per mesh. -/
def expItemsU : List (String × Geom) → List (List Nat)
  | [] => []
  | (_, Geom.mesh m) :: rest =>
    byte_pad (facesBytes m) :: byte_pad (vertBytes m) :: expItemsU rest
  | (_, Geom.path _) :: rest => expItemsU rest

/-- The `(buffer-item index, geometry name)` pairs the `export_gltf` loop
walks, starting at item index `i`. -/
def pairsOf : Nat → List (String × Geom) → List (Nat × String)
  | _, [] => []
  | i, (n, _) :: rest => (i, n) :: pairsOf (i + 2) rest

/-- The external buffer file `export_gltf` writes for one uncolored triangle
mesh (the path case is unreachable under the uncolored-mesh hypothesis). -/
def meshBinFile : String × Geom → String × List Nat
  | (n, Geom.mesh m) =>
    ("mesh_" ++ n ++ ".bin", byte_pad (facesBytes m) ++ byte_pad (vertBytes m))
  | (n, Geom.path _) => ("mesh_" ++ n ++ ".bin", [])

/-- A document whose only node is literally named `"world"` (for the
base-frame collision check). -/
def exDocWorld : Doc :=
  { scene := 0, scenes := [{ nodes := [0] }], accessors := [], bufferViews := []
    buffers := [], meshes := []
    materials? := none
    nodes := [{ name := some "world", matrix := none, children := [], mesh := none }] }

/-- A concrete one-mesh scene for instantiating the round-trip theorem. -/
def wScene : Scene := { geometry := [("m", Geom.mesh exMesh)] }

/-- A degenerate JSON dump (the parser below ignores its output anyway). -/
def wJd : Doc → List Nat := fun _ => []

/-- A JSON parser that recognizes the exported header of `wScene`. -/
def wJp : List Nat → Option Doc :=
  fun _ => some (export_glb_tree wScene exGraph false).1

/-! # Theorems -/

/-! ## C8: every exported buffer chunk is 4-byte aligned -/

theorem append_mesh_items_aligned (m : Trimesh) (name : String) (t : TreeB)
    (items : List (List Nat)) (inc : Bool)
    (h : ∀ it ∈ items, it.length % 4 = 0) :
    ∀ it ∈ (append_mesh m name t items inc).2, it.length % 4 = 0 := by
  intro it hit
  have h4 : (0 : Nat) < 4 := by norm_num
  cases hc : m.vertexColors with
  | some cols =>
    simp only [append_mesh, hc, List.mem_append] at hit
    rcases hit with (hit | hit) | hit
    · exact h it hit
    · simp only [List.mem_cons, List.not_mem_nil, or_false] at hit
      rcases hit with rfl | rfl | rfl <;> exact byte_pad_length_mod _ 4 h4
    · cases inc with
      | false => simp at hit
      | true =>
        simp at hit
        exact hit ▸ byte_pad_length_mod _ 4 (by norm_num)
  | none =>
    simp only [append_mesh, hc, List.mem_append] at hit
    rcases hit with (hit | hit) | hit
    · exact h it hit
    · simp only [List.mem_cons, List.not_mem_nil, or_false] at hit
      rcases hit with rfl | rfl <;> exact byte_pad_length_mod _ 4 h4
    · cases inc with
      | false => simp at hit
      | true =>
        simp at hit
        exact hit ▸ byte_pad_length_mod _ 4 (by norm_num)

theorem append_path_items_aligned (p : TPath) (name : String) (t : TreeB)
    (items : List (List Nat))
    (h : ∀ it ∈ items, it.length % 4 = 0) :
    ∀ it ∈ (append_path p name t items).2, it.length % 4 = 0 := by
  intro it hit
  simp only [append_path, List.mem_append, List.mem_cons, List.not_mem_nil,
    or_false] at hit
  rcases hit with hit | rfl
  · exact h it hit
  · exact byte_pad_length_mod _ 4 (by norm_num)

theorem create_items_aligned (inc : Bool) (geoms : List (String × Geom)) :
    ∀ (t : TreeB) (items : List (List Nat)),
      (∀ it ∈ items, it.length % 4 = 0) →
      ∀ it ∈ (create_items inc geoms t items).2, it.length % 4 = 0 := by
  induction geoms with
  | nil => intro t items h it hit; exact h it hit
  | cons p rest ih =>
    intro t items h
    obtain ⟨name, g⟩ := p
    cases g with
    | mesh m =>
      exact ih _ _ (append_mesh_items_aligned m name t items inc h)
    | path pa =>
      exact ih _ _ (append_path_items_aligned pa name t items h)

/-- C8. Every byte chunk `_create_gltf_structure` places into the export
buffer-item list has a length that is a multiple of 4, and for every input,
`_byte_pad` with its default bound 4 returns bytes whose length is a multiple
of 4. -/
theorem export_chunks_aligned :
    (∀ (scene : Scene) (g : GraphGltf) (inc : Bool),
      ∀ it ∈ (create_gltf_structure scene g inc).2, it.length % 4 = 0) ∧
    (∀ data : List Nat, (byte_pad data 4).length % 4 = 0) := by
  constructor
  · intro scene g inc it hit
    exact create_items_aligned inc scene.geometry _ [] (by simp) it hit
  · intro data
    exact byte_pad_length_mod data 4 (by norm_num)

/-- Witness for `export_chunks_aligned` at a concrete scene and chunk. -/
theorem export_chunks_aligned_witness :
    (byte_pad (facesBytes exMesh) ∈
      (create_gltf_structure ⟨[("m", Geom.mesh exMesh)]⟩ exGraph false).2 ∧
     (byte_pad (facesBytes exMesh)).length % 4 = 0) ∧
    (byte_pad [1, 2, 3] 4).length % 4 = 0 := by
  refine ⟨⟨by decide, ?_⟩, export_chunks_aligned.2 [1, 2, 3]⟩
  exact export_chunks_aligned.1 ⟨[("m", Geom.mesh exMesh)]⟩ exGraph false _ (by decide)

/-! ## C2: GLB header length fields -/

theorem padContent_length_mod (json : List Nat) :
    (padContent json).length % 4 = 0 := by
  simp only [padContent, List.length_append, List.length_replicate]
  omega

/-- The GLB byte layout, with the two `_byte_pad` calls on the already-aligned
20-byte and 8-byte headers removed. -/
theorem glbAssemble_eq (json data : List Nat) :
    glbAssemble json data =
      bytesLE 4 magic_gltf ++ bytesLE 4 2 ++
      bytesLE 4 ((padContent json).length + data.length + 28) ++
      bytesLE 4 (padContent json).length ++ bytesLE 4 magic_json ++
      padContent json ++
      (bytesLE 4 data.length ++ bytesLE 4 magic_bin) ++ data := by
  unfold glbAssemble
  dsimp only
  rw [byte_pad_of_aligned _ _ (by simp [bytesLE_length]),
    byte_pad_of_aligned _ _ (by simp [bytesLE_length])]

/-- C2. For every scene, the GLB bytes from `export_glb` report, in the
little-endian uint32 field at offset 8, the total length
`28 + len(padded JSON chunk) + len(binary chunk)`; at offset 12 the padded
JSON payload length; and at offset `20 + len(padded JSON)` the binary payload
length.  The fit hypothesis keeps the uint32 fields from wrapping. -/
theorem glb_header_fields (jd : Doc → List Nat) (scene : Scene) (g : GraphGltf)
    (inc : Bool)
    (hfit : 28 + (padContent (jd (export_glb_tree scene g inc).1)).length +
      (export_glb_tree scene g inc).2.length < 4294967296) :
    leOfBytes ((export_glb jd scene g inc).drop 8 |>.take 4) =
      28 + (padContent (jd (export_glb_tree scene g inc).1)).length +
        (export_glb_tree scene g inc).2.length ∧
    leOfBytes ((export_glb jd scene g inc).drop 12 |>.take 4) =
      (padContent (jd (export_glb_tree scene g inc).1)).length ∧
    leOfBytes ((export_glb jd scene g inc).drop
        (20 + (padContent (jd (export_glb_tree scene g inc).1)).length)
      |>.take 4) = (export_glb_tree scene g inc).2.length := by
  set json := jd (export_glb_tree scene g inc).1 with hjson
  set data := (export_glb_tree scene g inc).2 with hdata
  have he : export_glb jd scene g inc = glbAssemble json data := rfl
  rw [he, glbAssemble_eq]
  set content := padContent json with hcontent
  have l4 : ∀ n : Nat, (bytesLE 4 n).length = 4 := fun n => bytesLE_length 4 n
  have hval : ∀ n : Nat, n < 4294967296 → leOfBytes (bytesLE 4 n) = n := by
    intro n hn
    rw [leOfBytes_bytesLE]
    exact Nat.mod_eq_of_lt (by norm_num; omega)
  refine ⟨?_, ?_, ?_⟩
  · have : (bytesLE 4 magic_gltf ++ bytesLE 4 2 ++
        bytesLE 4 (content.length + data.length + 28) ++
        bytesLE 4 content.length ++ bytesLE 4 magic_json ++ content ++
        (bytesLE 4 data.length ++ bytesLE 4 magic_bin) ++ data).drop 8 =
        bytesLE 4 (content.length + data.length + 28) ++
        (bytesLE 4 content.length ++ (bytesLE 4 magic_json ++ (content ++
        ((bytesLE 4 data.length ++ bytesLE 4 magic_bin) ++ data)))) := by
      simp only [List.append_assoc]
      rw [← List.append_assoc (bytesLE 4 magic_gltf) (bytesLE 4 2)]
      exact List.drop_left' (by simp [l4])
    rw [this, List.take_left' (l4 _), hval _ (by omega)]
    omega
  · have : (bytesLE 4 magic_gltf ++ bytesLE 4 2 ++
        bytesLE 4 (content.length + data.length + 28) ++
        bytesLE 4 content.length ++ bytesLE 4 magic_json ++ content ++
        (bytesLE 4 data.length ++ bytesLE 4 magic_bin) ++ data).drop 12 =
        bytesLE 4 content.length ++ (bytesLE 4 magic_json ++ (content ++
        ((bytesLE 4 data.length ++ bytesLE 4 magic_bin) ++ data))) := by
      simp only [List.append_assoc]
      rw [← List.append_assoc (bytesLE 4 magic_gltf) (bytesLE 4 2),
        ← List.append_assoc _ (bytesLE 4 (content.length + data.length + 28))]
      exact List.drop_left' (by simp [l4])
    rw [this, List.take_left' (l4 _), hval _ (by omega)]
  · have : (bytesLE 4 magic_gltf ++ bytesLE 4 2 ++
        bytesLE 4 (content.length + data.length + 28) ++
        bytesLE 4 content.length ++ bytesLE 4 magic_json ++ content ++
        (bytesLE 4 data.length ++ bytesLE 4 magic_bin) ++ data).drop
          (20 + content.length) =
        bytesLE 4 data.length ++ (bytesLE 4 magic_bin ++ data) := by
      simp only [List.append_assoc]
      rw [← List.append_assoc (bytesLE 4 magic_gltf) (bytesLE 4 2),
        ← List.append_assoc _ (bytesLE 4 (content.length + data.length + 28)),
        ← List.append_assoc _ (bytesLE 4 content.length),
        ← List.append_assoc _ (bytesLE 4 magic_json),
        ← List.append_assoc _ content]
      exact List.drop_left' (by simp [l4]; omega)
    rw [this, List.take_left' (l4 _), hval _ (by omega)]

/-- Witness for `glb_header_fields` at an empty scene. -/
theorem glb_header_fields_witness :
    leOfBytes (((export_glb (fun _ => []) ⟨[]⟩ exGraph false).drop 8).take 4) =
      28 + (padContent ((fun (_ : Doc) => ([] : List Nat))
        (export_glb_tree ⟨[]⟩ exGraph false).1)).length +
        (export_glb_tree ⟨[]⟩ exGraph false).2.length := by
  exact (glb_header_fields (fun _ => []) ⟨[]⟩ exGraph false (by decide)).1

/-! ## C3: GLB container error handling -/

theorem chunkListAux_getElem (k : Nat) (hk : 0 < k) :
    ∀ (i fuel : Nat) (l : List α), l.length ≤ fuel → k * i + k ≤ l.length →
      (chunkListAux k fuel l)[i]? = some ((l.drop (k * i)).take k) := by
  intro i
  induction i with
  | zero =>
    intro fuel l hf hb
    match fuel, l, hf, hb with
    | _, [], _, hb =>
      simp only [List.length_nil, Nat.le_zero, Nat.add_eq_zero] at hb
      exact absurd hb.2 (Nat.pos_iff_ne_zero.mp hk)
    | 0, x :: xs, hf, _ => simp at hf
    | fuel + 1, x :: xs, _, _ =>
      simp [chunkListAux]
  | succ i ih =>
    intro fuel l hf hb
    match fuel, l, hf, hb with
    | _, [], _, hb =>
      simp only [List.length_nil, Nat.le_zero, Nat.add_eq_zero] at hb
      exact absurd hb.2 (Nat.pos_iff_ne_zero.mp hk)
    | 0, x :: xs, hf, _ => simp at hf
    | fuel + 1, x :: xs, hf, hb =>
      show ((x :: xs).take k :: chunkListAux k fuel ((x :: xs).drop k))[i + 1]? = _
      have hkk : k * (i + 1) = k * i + k := by ring
      have h1 : ((x :: xs).drop k).length ≤ fuel := by
        simp only [List.length_drop, List.length_cons] at hf ⊢
        omega
      have h2 : k * i + k ≤ ((x :: xs).drop k).length := by
        simp only [List.length_drop, List.length_cons] at hb ⊢
        omega
      rw [List.getElem?_cons_succ, ih fuel _ h1 h2, List.drop_drop]
      rw [show k + k * i = k * (i + 1) by ring]

theorem chunkList_getElem (k : Nat) (hk : 0 < k) (l : List α) (i : Nat)
    (h : k * i + k ≤ l.length) :
    (chunkList k l)[i]? = some ((l.drop (k * i)).take k) := by
  unfold chunkList
  rw [if_neg (Nat.pos_iff_ne_zero.mp hk)]
  exact chunkListAux_getElem k hk i l.length l le_rfl h

/-- The `i`-th header word of the 20-byte GLB head, for streams long enough to
contain it. -/
theorem glb_head_word (stream : List Nat) (i : Nat) (hi : i < 5)
    (hlen : 4 * i + 4 ≤ stream.length) :
    ((chunkList 4 (stream.take 20)).map leOfBytes)[i]? =
      some (leOfBytes ((stream.drop (4 * i)).take 4)) := by
  have hb : 4 * i + 4 ≤ (stream.take 20).length := by
    simp only [List.length_take]
    omega
  rw [List.getElem?_map, chunkList_getElem 4 (by norm_num) _ i hb,
    Option.map_some']
  congr 2
  rw [List.drop_take, List.take_take]
  congr 1
  omega

theorem load_glb_chunks_bad_magic (jp : List Nat → Option Doc)
    (stream : List Nat) (h4 : 4 ≤ stream.length)
    (hm : leOfBytes (stream.take 4) ≠ magic_gltf) :
    load_glb_chunks jp stream = .error .fmt := by
  unfold load_glb_chunks
  dsimp only
  by_cases hmod : (stream.take 20).length % 4 = 0
  · have h0 := glb_head_word stream 0 (by norm_num) (by omega)
    simp only [Nat.mul_zero, List.drop_zero] at h0
    simp only [if_neg (not_not_intro hmod), h0]
    rw [if_pos hm]
  · simp only [if_pos hmod]

theorem load_glb_chunks_bad_version (jp : List Nat → Option Doc)
    (stream : List Nat) (h8 : 8 ≤ stream.length)
    (hv : leOfBytes ((stream.drop 4).take 4) ≠ 2) :
    load_glb_chunks jp stream = .error .fmt := by
  unfold load_glb_chunks
  dsimp only
  by_cases hmod : (stream.take 20).length % 4 = 0
  · have h0 := glb_head_word stream 0 (by norm_num) (by omega)
    simp only [Nat.mul_zero, List.drop_zero] at h0
    have h1 := glb_head_word stream 1 (by norm_num) (by omega)
    rw [show (4 : Nat) * 1 = 4 by norm_num] at h1
    simp only [if_neg (not_not_intro hmod), h0, h1]
    by_cases hw0 : leOfBytes (stream.take 4) = magic_gltf
    · rw [if_neg (not_not_intro hw0), if_pos hv]
    · rw [if_pos hw0]
  · simp only [if_pos hmod]

theorem load_glb_chunks_bad_first_chunk (jp : List Nat → Option Doc)
    (stream : List Nat) (h20 : 20 ≤ stream.length)
    (hm : leOfBytes (stream.take 4) = magic_gltf)
    (hv : leOfBytes ((stream.drop 4).take 4) = 2)
    (hj : leOfBytes ((stream.drop 16).take 4) ≠ magic_json) :
    load_glb_chunks jp stream = .error .fmt := by
  unfold load_glb_chunks
  dsimp only
  have hmod : (stream.take 20).length % 4 = 0 := by
    simp only [List.length_take]
    omega
  have h0 := glb_head_word stream 0 (by norm_num) (by omega)
  simp only [Nat.mul_zero, List.drop_zero] at h0
  have h1 := glb_head_word stream 1 (by norm_num) (by omega)
  have h2 := glb_head_word stream 2 (by norm_num) (by omega)
  have h3 := glb_head_word stream 3 (by norm_num) (by omega)
  have h4 := glb_head_word stream 4 (by norm_num) (by omega)
  rw [show (4 : Nat) * 1 = 4 by norm_num] at h1
  rw [show (4 : Nat) * 2 = 8 by norm_num] at h2
  rw [show (4 : Nat) * 3 = 12 by norm_num] at h3
  rw [show (4 : Nat) * 4 = 16 by norm_num] at h4
  simp only [if_neg (not_not_intro hmod), h0, h1, h2, h3, h4]
  rw [if_neg (not_not_intro hm), if_neg (not_not_intro hv), if_pos hj]

theorem load_glb_of_chunks_error (jp : List Nat → Option Doc) (pil : Bool)
    (uid : Nat → String) (rand : String) (fuel : Nat) (stream : List Nat)
    (e : Err) (h : load_glb_chunks jp stream = .error e) :
    load_glb jp pil uid rand fuel stream = .error e := by
  unfold load_glb
  rw [h]

/-- C3. For every input byte stream, `load_glb` fails with a `FormatError`
(`ValueError`, `Err.fmt`) when the first header word is not the glTF magic or
the version word is not 2, or when the first chunk's type word is not the JSON
magic; and in the chunk loop, a subsequent chunk whose type is not the BIN
magic or whose payload is shorter than its declared length is a `FormatError`,
while fewer than 8 bytes at a subsequent chunk-header position terminate the
loop without error.  (The header conditions presuppose the stream is long
enough to contain the field being tested.) -/
theorem load_glb_malformed_input :
    (∀ (jp : List Nat → Option Doc) (pil : Bool) (uid : Nat → String)
        (rand : String) (fuel : Nat) (stream : List Nat),
      (4 ≤ stream.length → leOfBytes (stream.take 4) ≠ magic_gltf →
        load_glb jp pil uid rand fuel stream = Except.error Err.fmt) ∧
      (8 ≤ stream.length → leOfBytes ((stream.drop 4).take 4) ≠ 2 →
        load_glb jp pil uid rand fuel stream = Except.error Err.fmt) ∧
      (20 ≤ stream.length → leOfBytes (stream.take 4) = magic_gltf →
        leOfBytes ((stream.drop 4).take 4) = 2 →
        leOfBytes ((stream.drop 16).take 4) ≠ magic_json →
        load_glb jp pil uid rand fuel stream = Except.error Err.fmt)) ∧
    (∀ (stream : List Nat) (total pos : Nat) (acc : List (List Nat))
        (fuel : Nat), pos < total →
      (((stream.drop pos).take 8).length < 8 →
        readChunksAux stream total (fuel + 1) pos acc = Except.ok acc) ∧
      (((stream.drop pos).take 8).length = 8 →
        leOfBytes (((stream.drop pos).take 8).drop 4) ≠ magic_bin →
        readChunksAux stream total (fuel + 1) pos acc = Except.error Err.fmt) ∧
      (((stream.drop pos).take 8).length = 8 →
        leOfBytes (((stream.drop pos).take 8).drop 4) = magic_bin →
        ((stream.drop (pos + 8)).take
            (leOfBytes (((stream.drop pos).take 8).take 4))).length ≠
          leOfBytes (((stream.drop pos).take 8).take 4) →
        readChunksAux stream total (fuel + 1) pos acc = Except.error Err.fmt)) := by
  constructor
  · intro jp pil uid rand fuel stream
    refine ⟨fun h4 hm => ?_, fun h8 hv => ?_, fun h20 hm hv hj => ?_⟩
    · exact load_glb_of_chunks_error _ _ _ _ _ _ _
        (load_glb_chunks_bad_magic jp stream h4 hm)
    · exact load_glb_of_chunks_error _ _ _ _ _ _ _
        (load_glb_chunks_bad_version jp stream h8 hv)
    · exact load_glb_of_chunks_error _ _ _ _ _ _ _
        (load_glb_chunks_bad_first_chunk jp stream h20 hm hv hj)
  · intro stream total pos acc fuel hpos
    refine ⟨fun hshort => ?_, fun hlen ht => ?_, fun hlen ht hdata => ?_⟩
    · unfold readChunksAux
      dsimp only
      rw [if_pos hpos, if_pos hshort]
    · unfold readChunksAux
      dsimp only
      rw [if_pos hpos, if_neg (by omega), if_pos ht]
    · unfold readChunksAux
      dsimp only
      rw [if_pos hpos, if_neg (by omega), if_neg (not_not_intro ht),
        if_pos hdata]

/-- Witness for `load_glb_malformed_input` on concrete malformed streams. -/
theorem load_glb_malformed_input_witness :
    load_glb (fun _ => none) false exUid "r" 3 [0, 0, 0, 0] =
      Except.error Err.fmt ∧
    load_glb (fun _ => none) false exUid "r" 3
      (bytesLE 4 magic_gltf ++ bytesLE 4 7) = Except.error Err.fmt ∧
    load_glb (fun _ => none) false exUid "r" 3
      (bytesLE 4 magic_gltf ++ bytesLE 4 2 ++ bytesLE 4 100 ++ bytesLE 4 0 ++
        bytesLE 4 0) = Except.error Err.fmt ∧
    readChunksAux [] 1 (2 + 1) 0 [] = Except.ok [] ∧
    readChunksAux (bytesLE 4 0 ++ bytesLE 4 0) 16 (2 + 1) 0 [] =
      Except.error Err.fmt ∧
    readChunksAux (bytesLE 4 5 ++ bytesLE 4 magic_bin) 16 (2 + 1) 0 [] =
      Except.error Err.fmt := by
  refine ⟨?_, ?_, ?_, ?_, ?_, ?_⟩
  · exact (load_glb_malformed_input.1 (fun _ => none) false exUid "r" 3
      [0, 0, 0, 0]).1 (by decide) (by decide)
  · exact (load_glb_malformed_input.1 (fun _ => none) false exUid "r" 3
      (bytesLE 4 magic_gltf ++ bytesLE 4 7)).2.1 (by decide) (by decide)
  · exact (load_glb_malformed_input.1 (fun _ => none) false exUid "r" 3
      (bytesLE 4 magic_gltf ++ bytesLE 4 2 ++ bytesLE 4 100 ++ bytesLE 4 0 ++
        bytesLE 4 0)).2.2 (by decide) (by decide) (by decide) (by decide)
  · exact (load_glb_malformed_input.2 [] 1 0 [] 2 (by decide)).1 (by decide)
  · exact (load_glb_malformed_input.2 (bytesLE 4 0 ++ bytesLE 4 0) 16 0 [] 2
      (by decide)).2.1 (by decide) (by decide)
  · exact (load_glb_malformed_input.2 (bytesLE 4 5 ++ bytesLE 4 magic_bin) 16 0
      [] 2 (by decide)).2.2 (by decide) (by decide) (by decide)

/-! ## C5: base-frame name collision (code bug) -/

/-- C5 (code evaluation).  The collision check `if base_frame in names` tests
membership among the dict's keys, which at that point are all integer node
indexes, so it can never fire: the import always returns base frame `"world"`,
even on a document with a node literally named `"world"` (where the claim and
the source's own comment, "make sure we have a unique base frame name", call
for a random replacement). -/
theorem base_frame_always_world :
    (∀ (nodes : List Node) (rand : String),
      chooseBaseFrame (buildNodeNames nodes) rand = "world") ∧
    (exDocWorld.nodes.filterMap Node.name).contains "world" = true ∧
    Except.map SceneKwargs.base_frame
      (read_buffers false exUid "4471686983" 3 exDocWorld []) =
      Except.ok "world" := by
  refine ⟨?_, by decide, by decide⟩
  intro nodes rand
  unfold chooseBaseFrame
  rw [if_neg]
  simp only [List.any_eq_true, decide_eq_true_eq, not_exists]
  rintro ⟨k, v⟩ ⟨hmem, hk⟩
  simp only at hk
  subst hk
  simp only [buildNodeNames, List.mem_map] at hmem
  obtain ⟨⟨i, n⟩, _, heq⟩ := hmem
  simp at heq

/-! ## C9: accessor resolution -/

theorem accessorRaw_ok_shape (a : Accessor) (views : List (List Nat))
    (arr : GArr) (h : accessorRaw a views = .ok arr) :
    ∃ data itemsize, views[a.bufferView]? = some data ∧
      typeSize a.componentType = some itemsize ∧
      arr.comps = (chunkList itemsize
        ((data.drop (a.byteOffset.getD 0)).take
          (itemsize * a.count * perCount (shapeOf a.type_)))).map leOfBytes := by
  unfold accessorRaw at h
  split at h
  · exact absurd h (by simp)
  · rename_i data hv
    split at h
    · exact absurd h (by simp)
    · rename_i itemsize hts
      dsimp only at h
      split at h
      · split at h
        · injection h with h
          exact ⟨data, itemsize, hv, hts, by rw [← h]⟩
        · rename_i w hsh
          split at h
          · injection h with h
            exact ⟨data, itemsize, hv, hts, by rw [← h]⟩
          · exact absurd h (by simp)
        · rename_i n hsh
          split at h
          · injection h with h
            exact ⟨data, itemsize, hv, hts, by rw [← h]⟩
          · exact absurd h (by simp)
      · exact absurd h (by simp)

/-- C9 (amended).  Every accessor is resolved by reinterpreting the byte span
of length `itemsize * count * (product of shape dims)` starting at the
accessor's `byteOffset` (0 when absent) within its bufferView's bytes; and
whenever the resulting element count differs from the declared `count`, the
resolution fails — but with an `AssertionError` (`assert len(array) ==
a['count']`), not the `ValueError` that models the spec's `FormatError`. -/
theorem accessor_resolution (a : Accessor) (views : List (List Nat)) :
    (∀ arr, resolveAccessor a views = .ok arr →
      (∃ data itemsize, views[a.bufferView]? = some data ∧
        typeSize a.componentType = some itemsize ∧
        arr.comps = (chunkList itemsize
          ((data.drop (a.byteOffset.getD 0)).take
            (itemsize * a.count * perCount (shapeOf a.type_)))).map leOfBytes) ∧
      arr.pyLen = a.count) ∧
    (∀ arr, accessorRaw a views = .ok arr → arr.pyLen ≠ a.count →
      resolveAccessor a views = Except.error Err.assert_) := by
  constructor
  · intro arr h
    unfold resolveAccessor at h
    cases hraw : accessorRaw a views with
    | error e => rw [hraw] at h; exact absurd h (by simp)
    | ok arr' =>
      rw [hraw] at h
      dsimp only at h
      by_cases hlen : arr'.pyLen = a.count
      · rw [if_pos hlen] at h
        injection h with h
        subst h
        exact ⟨accessorRaw_ok_shape a views arr' hraw, hlen⟩
      · rw [if_neg hlen] at h
        exact absurd h (by simp)
  · intro arr h hne
    unfold resolveAccessor
    rw [h]
    dsimp only
    rw [if_neg hne]

/-- Counterexample to C9 as stated: a SCALAR uint32 accessor declaring
`count = 2` over a 4-byte view resolves to one element; the resolution fails
with an `AssertionError`, not with the `ValueError` that models the spec's
`FormatError`. -/
theorem accessor_count_mismatch_not_fmt :
    resolveAccessor
      { bufferView := 0, componentType := 5125, count := 2, type_ := .SCALAR
        byteOffset := none, normalized := false } [[0, 0, 0, 0]] =
      Except.error Err.assert_ ∧ Err.assert_ ≠ Err.fmt := by
  exact ⟨by decide, by decide⟩

/-- Witness for `accessor_resolution` at concrete accessors. -/
theorem accessor_resolution_witness :
    ((∃ data itemsize, ([[5, 0, 0, 0]] : List (List Nat))[(0 : Nat)]? = some data ∧
        typeSize 5125 = some itemsize ∧
        ([5] : List Nat) = (chunkList itemsize
          ((data.drop ((none : Option Nat).getD 0)).take
            (itemsize * 1 * perCount (shapeOf .SCALAR)))).map leOfBytes) ∧
      GArr.pyLen { shape := .flat, comps := [5] } = 1) ∧
    resolveAccessor
      { bufferView := 0, componentType := 5125, count := 2, type_ := .SCALAR
        byteOffset := none, normalized := false } [[0, 0, 0, 0]] =
      Except.error Err.assert_ := by
  constructor
  · exact (accessor_resolution
      { bufferView := 0, componentType := 5125, count := 1, type_ := .SCALAR
        byteOffset := none, normalized := false } [[5, 0, 0, 0]]).1
      { shape := .flat, comps := [5] } (by decide)
  · exact (accessor_resolution
      { bufferView := 0, componentType := 5125, count := 2, type_ := .SCALAR
        byteOffset := none, normalized := false } [[0, 0, 0, 0]]).2
      { shape := .flat, comps := [0] } (by decide) (by decide)

/-! ## C10: duplicate mesh names collapse the geometry dict -/

/-- C10.  Geometries are keyed by generated name in an ordered dict: when two
single-primitive triangle meshes generate the same name, the later mesh's
kwargs silently replace the earlier entry, `mesh_prim` records the shared name
for both mesh indexes (so both nodes' geometry edges reference the surviving
entry), and the geometry dict is strictly smaller than the number of triangle
primitives. -/
theorem duplicate_mesh_names_overwrite (access : List GArr)
    (mats : List PBRMaterial) (m1 m2 : GMesh) (s : String)
    (k1 k2 : MeshKwargs)
    (h1 : load_prims access mats m1.name m1.primitives.length m1.extras_units 0
      m1.primitives = .ok [(s, k1)])
    (h2 : load_prims access mats m2.name m2.primitives.length m2.extras_units 0
      m2.primitives = .ok [(s, k2)])
    (hp1 : m1.primitives.length = 1) (hp2 : m2.primitives.length = 1) :
    load_meshes access mats [m1, m2] [] = .ok ([(s, k2)], [[s], [s]]) ∧
    ([(s, k2)] : List (String × MeshKwargs)).length <
      m1.primitives.length + m2.primitives.length := by
  constructor
  · show load_meshes access mats (m1 :: [m2]) [] = _
    unfold load_meshes
    rw [h1]
    dsimp only [List.foldl]
    unfold load_meshes
    rw [h2]
    dsimp only [List.foldl]
    unfold load_meshes
    simp [dictSet]
  · simp only [List.length_cons, List.length_nil]
    omega

/-- Witness for `duplicate_mesh_names_overwrite`: two meshes both named
`"dup"`. -/
theorem duplicate_mesh_names_overwrite_witness :
    load_meshes [{ shape := .flat, comps := [0, 0, 0] },
        { shape := .vec 3, comps := [1, 1, 1] },
        { shape := .vec 3, comps := [2, 2, 2] }] []
      [{ name := some "dup"
         primitives := [{ position := some 1, color0 := none, normal := none
                          texcoord0 := none, indices := some 0, mode := some 4
                          material := none }]
         extras_units := none },
       { name := some "dup"
         primitives := [{ position := some 2, color0 := none, normal := none
                          texcoord0 := none, indices := some 0, mode := some 4
                          material := none }]
         extras_units := none }] [] =
      .ok ([("dup",
        { units := none, faces := [[0, 0, 0]]
          vertices := { shape := .vec 3, comps := [2, 2, 2] }
          visual := none })], [["dup"], ["dup"]]) := by
  exact (duplicate_mesh_names_overwrite
    [{ shape := .flat, comps := [0, 0, 0] },
     { shape := .vec 3, comps := [1, 1, 1] },
     { shape := .vec 3, comps := [2, 2, 2] }] []
    { name := some "dup"
      primitives := [{ position := some 1, color0 := none, normal := none
                       texcoord0 := none, indices := some 0, mode := some 4
                       material := none }]
      extras_units := none }
    { name := some "dup"
      primitives := [{ position := some 2, color0 := none, normal := none
                       texcoord0 := none, indices := some 0, mode := some 4
                       material := none }]
      extras_units := none }
    "dup"
    { units := none, faces := [[0, 0, 0]]
      vertices := { shape := .vec 3, comps := [1, 1, 1] }, visual := none }
    { units := none, faces := [[0, 0, 0]]
      vertices := { shape := .vec 3, comps := [2, 2, 2] }, visual := none }
    (by decide) (by decide) (by decide) (by decide)).1

/-! ## C4: edges emitted per popped node -/

/-- C4.  For every node popped from the traversal queue: (i) the loop appends
exactly the node's edge list and pushes its children; (ii) a node without a
mesh emits exactly the one structural edge (parent name, child name, the
node's matrix reshaped 4x4 and transposed, or identity when absent); (iii) a
node referencing a mesh with N generated geometry names emits the structural
edge plus N edges reusing the matrix, each with `geometry` set and a minted
`frame_to` of the form `<geometryName>_<suffix>` with suffix
`unique_id(length=6, increment=len(graph)).upper()` — N+1 edges in all; and
(iv) two minted names are distinct whenever the external `unique_id` returns
distinct 6-character suffixes for the two increments. -/
theorem node_edge_emission (uid : Nat → String) (nodes : List Node)
    (names : List (NKey × String)) (primLists : List (List String))
    (child : Node) (a : NKey) (b : Nat) (glen : Nat)
    (ffrom fto : String) (mat : List (List Rat))
    (hf : dictGet names a = some ffrom)
    (ht : dictGet names (Sum.inl b) = some fto)
    (hmat : matrixOf child.matrix = .ok mat) :
    (∀ (fuel : Nat) (q : List (NKey × Nat)) (graph edges : List Edge),
      nodes[b]? = some child →
      processNode uid names primLists child a b graph.length = .ok edges →
      traverseNodes uid nodes names primLists (fuel + 1) (q ++ [(a, b)]) graph =
        traverseNodes uid nodes names primLists fuel
          (q ++ child.children.map fun i => (Sum.inl b, i)) (graph ++ edges)) ∧
    (child.mesh = none →
      processNode uid names primLists child a b glen =
        .ok [{ frame_from := ffrom, frame_to := fto, matrix := mat
               geometry := none }]) ∧
    (∀ mi, child.mesh = some mi →
      processNode uid names primLists child a b glen =
        .ok ({ frame_from := ffrom, frame_to := fto, matrix := mat
               geometry := none } ::
          (primLists.getD mi []).enum.map fun kn =>
            { frame_from := ffrom
              frame_to := kn.2 ++ "_" ++ uid (glen + 1 + kn.1)
              matrix := mat, geometry := some kn.2 }) ∧
      ((primLists.getD mi []).enum.map fun kn =>
        ({ frame_from := ffrom
           frame_to := kn.2 ++ "_" ++ uid (glen + 1 + kn.1)
           matrix := mat, geometry := some kn.2 } : Edge)).length =
        (primLists.getD mi []).length) ∧
    (∀ mi i j ni nj, child.mesh = some mi →
      (primLists.getD mi [])[i]? = some ni →
      (primLists.getD mi [])[j]? = some nj →
      (uid (glen + 1 + i)).length = 6 → (uid (glen + 1 + j)).length = 6 →
      uid (glen + 1 + i) ≠ uid (glen + 1 + j) →
      ni ++ "_" ++ uid (glen + 1 + i) ≠ nj ++ "_" ++ uid (glen + 1 + j)) := by
  refine ⟨?_, ?_, ?_, ?_⟩
  · intro fuel q graph edges hn hp
    conv_lhs => unfold traverseNodes
    simp only [List.getLast?_concat, List.dropLast_concat, hn, hp]
  · intro hmesh
    unfold processNode
    rw [hf, ht, hmat, hmesh]
  · intro mi hmesh
    constructor
    · unfold processNode
      rw [hf, ht, hmat, hmesh]
    · simp [List.enum_length]
  · intro mi i j ni nj _ _ _ hli hlj hsne heq
    apply hsne
    have hdata := congrArg String.data heq
    simp only [String.data_append] at hdata
    rw [List.append_assoc, List.append_assoc] at hdata
    have hlen : ("_".data ++ (uid (glen + 1 + i)).data).length =
        ("_".data ++ (uid (glen + 1 + j)).data).length := by
      simp only [List.length_append]
      have h1 : (uid (glen + 1 + i)).data.length = 6 := hli
      have h2 : (uid (glen + 1 + j)).data.length = 6 := hlj
      rw [h1, h2]
    have := (List.append_inj' hdata hlen).2
    simp only [String.data_append] at this
    have hsuf : (uid (glen + 1 + i)).data = (uid (glen + 1 + j)).data := by
      have h1 : ("_".data).length = ("_".data).length := rfl
      exact (List.append_inj_right this (by rfl))
    exact String.ext hsuf

/-- Witness for `node_edge_emission` on a concrete node with two geometry
instances. -/
theorem node_edge_emission_witness :
    processNode (fun n => if n = 1 then "AAAAAA" else "BBBBBB")
      [(Sum.inl 0, "n0"), (Sum.inr "world", "world")] [["g", "h"]]
      { name := some "n0", matrix := none, children := [], mesh := some 0 }
      (Sum.inr "world") 0 0 =
      .ok [{ frame_from := "world", frame_to := "n0", matrix := eye4
             geometry := none },
           { frame_from := "world", frame_to := "g_AAAAAA", matrix := eye4
             geometry := some "g" },
           { frame_from := "world", frame_to := "h_BBBBBB", matrix := eye4
             geometry := some "h" }] ∧
    processNode (fun n => if n = 1 then "AAAAAA" else "BBBBBB")
      [(Sum.inl 0, "n0"), (Sum.inr "world", "world")] [["g", "h"]]
      { name := some "n1", matrix := none, children := [], mesh := none }
      (Sum.inr "world") 0 5 =
      .ok [{ frame_from := "world", frame_to := "n0", matrix := eye4
             geometry := none }] ∧
    ("g" ++ "_" ++ (fun n => if n = 1 then "AAAAAA" else "BBBBBB") (0 + 1 + 0) ≠
      "h" ++ "_" ++ (fun n => if n = 1 then "AAAAAA" else "BBBBBB") (0 + 1 + 1)) := by
  refine ⟨?_, ?_, ?_⟩
  · have h := (node_edge_emission (fun n => if n = 1 then "AAAAAA" else "BBBBBB")
      [] [(Sum.inl 0, "n0"), (Sum.inr "world", "world")] [["g", "h"]]
      { name := some "n0", matrix := none, children := [], mesh := some 0 }
      (Sum.inr "world") 0 0 "world" "n0" eye4 (by decide) (by decide)
      rfl).2.2.1 0 rfl
    exact h.1.trans (by decide)
  · exact (node_edge_emission (fun n => if n = 1 then "AAAAAA" else "BBBBBB")
      [] [(Sum.inl 0, "n0"), (Sum.inr "world", "world")] [["g", "h"]]
      { name := some "n1", matrix := none, children := [], mesh := none }
      (Sum.inr "world") 0 5 "world" "n0" eye4 (by decide) (by decide)
      rfl).2.1 rfl
  · exact (node_edge_emission (fun n => if n = 1 then "AAAAAA" else "BBBBBB")
      [] [(Sum.inl 0, "n0"), (Sum.inr "world", "world")] [["g", "h"]]
      { name := some "n0", matrix := none, children := [], mesh := some 0 }
      (Sum.inr "world") 0 0 "world" "n0" eye4 (by decide) (by decide)
      rfl).2.2.2 0 0 1 "g" "h" rfl (by decide) (by decide) (by decide)
      (by decide) (by decide)

/-! ## C7: presence/absence of the materials key -/

/-- `create_items` only appends to the tree's mesh and material lists. -/
theorem create_items_meshes_materials (inc : Bool) (geoms : List (String × Geom)) :
    ∀ (t : TreeB) (items : List (List Nat)),
      ∃ ms mats,
        (create_items inc geoms t items).1.meshes = t.meshes ++ ms ∧
        (create_items inc geoms t items).1.materials = t.materials ++ mats := by
  induction geoms with
  | nil =>
    intro t items
    exact ⟨[], [], by simp [create_items], by simp [create_items]⟩
  | cons p rest ih =>
    intro t items
    obtain ⟨name, g⟩ := p
    cases g with
    | mesh m =>
      obtain ⟨ms, mats, h1, h2⟩ :=
        ih (append_mesh m name t items inc).1 (append_mesh m name t items inc).2
      have hstep : create_items inc ((name, Geom.mesh m) :: rest) t items =
          create_items inc rest (append_mesh m name t items inc).1
            (append_mesh m name t items inc).2 := rfl
      rw [hstep, h1, h2]
      cases hc : m.vertexColors with
      | some cols =>
        simp only [append_mesh, hc, List.append_assoc]
        exact ⟨_, _, rfl, rfl⟩
      | none =>
        simp only [append_mesh, hc, List.append_assoc]
        exact ⟨_, _, rfl, rfl⟩
    | path pa =>
      obtain ⟨ms, mats, h1, h2⟩ :=
        ih (append_path pa name t items).1 (append_path pa name t items).2
      have hstep : create_items inc ((name, Geom.path pa) :: rest) t items =
          create_items inc rest (append_path pa name t items).1
            (append_path pa name t items).2 := rfl
      rw [hstep, h1, h2]
      simp only [append_path, List.append_assoc]
      exact ⟨_, _, rfl, rfl⟩

theorem append_mesh_meshes_length (m : Trimesh) (name : String) (t : TreeB)
    (items : List (List Nat)) (inc : Bool) :
    (append_mesh m name t items inc).1.meshes.length = t.meshes.length + 1 := by
  cases hc : m.vertexColors <;> simp [append_mesh, hc]

theorem append_path_meshes_length (p : TPath) (name : String) (t : TreeB)
    (items : List (List Nat)) :
    (append_path p name t items).1.meshes.length = t.meshes.length + 1 := by
  simp [append_path]

/-- In any scene, a triangle mesh without vertex colors gets a derived
material appended and referenced by index from its primitive. -/
theorem create_items_uncolored_material (inc : Bool)
    (geoms : List (String × Geom)) :
    ∀ (t : TreeB) (items : List (List Nat)) (k : Nat) (name : String)
      (m : Trimesh),
      geoms[k]? = some (name, Geom.mesh m) → m.vertexColors = none →
      ∃ mi prim,
        (create_items inc geoms t items).1.meshes[t.meshes.length + k]? =
          some { name := some name, primitives := [prim]
                 extras_units := m.units } ∧
        prim.material = some mi ∧
        (create_items inc geoms t items).1.materials[mi]? =
          some (mesh_to_material m) := by
  induction geoms with
  | nil => intro _ _ k _ _ h _; simp at h
  | cons p rest ih =>
    intro t items k name m hk hc
    obtain ⟨pname, g⟩ := p
    cases k with
    | zero =>
      simp only [List.getElem?_cons_zero, Option.some.injEq, Prod.mk.injEq] at hk
      obtain ⟨rfl, rfl⟩ := hk
      have hstep : create_items inc ((pname, Geom.mesh m) :: rest) t items =
          create_items inc rest (append_mesh m pname t items inc).1
            (append_mesh m pname t items inc).2 := rfl
      obtain ⟨ms, mats, h1, h2⟩ := create_items_meshes_materials inc rest
        (append_mesh m pname t items inc).1 (append_mesh m pname t items inc).2
      refine ⟨t.materials.length,
        { position := some (t.accessors.length + 1), color0 := none
          normal := if inc = true then some (t.accessors.length + 2) else none
          texcoord0 := none, indices := some t.accessors.length
          mode := some 4, material := some t.materials.length }, ?_, rfl, ?_⟩
      · rw [hstep, h1]
        simp only [append_mesh, hc, List.append_assoc, Nat.add_zero]
        rw [List.getElem?_append_right (by omega)]
        simp
      · rw [hstep, h2]
        simp only [append_mesh, hc, List.append_assoc]
        rw [List.getElem?_append_right (by omega)]
        simp
    | succ k' =>
      simp only [List.getElem?_cons_succ] at hk
      cases g with
      | mesh mh =>
        have hstep : create_items inc ((pname, Geom.mesh mh) :: rest) t items =
            create_items inc rest (append_mesh mh pname t items inc).1
              (append_mesh mh pname t items inc).2 := rfl
        obtain ⟨mi, prim, hm, hpm, hmat⟩ := ih (append_mesh mh pname t items inc).1
          (append_mesh mh pname t items inc).2 k' name m hk hc
        refine ⟨mi, prim, ?_, hpm, ?_⟩
        · rw [hstep]
          rw [append_mesh_meshes_length] at hm
          rw [show t.meshes.length + (k' + 1) = t.meshes.length + 1 + k' by omega]
          exact hm
        · rw [hstep]; exact hmat
      | path ph =>
        have hstep : create_items inc ((pname, Geom.path ph) :: rest) t items =
            create_items inc rest (append_path ph pname t items).1
              (append_path ph pname t items).2 := rfl
        obtain ⟨mi, prim, hm, hpm, hmat⟩ := ih (append_path ph pname t items).1
          (append_path ph pname t items).2 k' name m hk hc
        refine ⟨mi, prim, ?_, hpm, ?_⟩
        · rw [hstep]
          rw [append_path_meshes_length] at hm
          rw [show t.meshes.length + (k' + 1) = t.meshes.length + 1 + k' by omega]
          exact hm
        · rw [hstep]; exact hmat

/-- When every geometry is a colored triangle mesh, no material is ever
appended. -/
theorem create_items_materials_colored (inc : Bool)
    (geoms : List (String × Geom)) :
    (∀ p ∈ geoms, p.2.hasVertexColors) →
    ∀ (t : TreeB) (items : List (List Nat)),
      (create_items inc geoms t items).1.materials = t.materials := by
  induction geoms with
  | nil => intro _ t items; simp [create_items]
  | cons p rest ih =>
    intro h t items
    obtain ⟨name, g⟩ := p
    cases g with
    | mesh m =>
      have hm : m.vertexColors.isSome = true := h (name, Geom.mesh m) (by simp)
      obtain ⟨cols, hc⟩ := Option.isSome_iff_exists.mp hm
      have hstep : create_items inc ((name, Geom.mesh m) :: rest) t items =
          create_items inc rest (append_mesh m name t items inc).1
            (append_mesh m name t items inc).2 := rfl
      rw [hstep, ih (fun q hq => h q (by simp [hq]))]
      simp [append_mesh, hc]
    | path pa =>
      exact absurd (h (name, Geom.path pa) (by simp)) (by simp [Geom.hasVertexColors])

/-- C7 (amended).  When every geometry in the scene is a triangle mesh with
per-vertex color, the exported tree has no `materials` key at all; and in any
scene, a triangle mesh without vertex color gets a derived material
(`_mesh_to_material`) appended and referenced by index from its primitive.
(As literally stated the claim is false: a scene containing a path — under
which every triangle mesh vacuously carries color — still gets a `materials`
array, because `_append_path` always appends the default material; see
`materials_key_counterexample`.) -/
theorem materials_key_behaviour :
    (∀ (scene : Scene) (g : GraphGltf) (inc : Bool),
      (∀ p ∈ scene.geometry, p.2.hasVertexColors) →
      (create_gltf_structure scene g inc).1.materials? = none) ∧
    (∀ (scene : Scene) (g : GraphGltf) (inc : Bool) (k : Nat) (name : String)
        (m : Trimesh),
      scene.geometry[k]? = some (name, Geom.mesh m) → m.vertexColors = none →
      ∃ mi prim,
        (create_gltf_structure scene g inc).1.meshes[k]? =
          some { name := some name, primitives := [prim]
                 extras_units := m.units } ∧
        prim.material = some mi ∧
        ((create_gltf_structure scene g inc).1.materials?.getD [])[mi]? =
          some (mesh_to_material m)) := by
  constructor
  · intro scene g inc h
    unfold create_gltf_structure
    dsimp only
    rw [create_items_materials_colored inc scene.geometry h]
    simp
  · intro scene g inc k name m hk hc
    obtain ⟨mi, prim, hm, hpm, hmat⟩ :=
      create_items_uncolored_material inc scene.geometry
        { scene := g.scene, scenes := g.scenes, accessors := [], meshes := []
          materials := [], nodes := g.nodes } [] k name m hk hc
    refine ⟨mi, prim, ?_, hpm, ?_⟩
    · unfold create_gltf_structure
      dsimp only
      simpa using hm
    · unfold create_gltf_structure
      dsimp only
      have hne : (create_items inc scene.geometry
          { scene := g.scene, scenes := g.scenes, accessors := [], meshes := []
            materials := [], nodes := g.nodes } []).1.materials ≠ [] := by
        intro hnil
        rw [hnil] at hmat
        simp at hmat
      rw [if_neg hne]
      simpa using hmat

/-- Counterexample to C7 as stated: in a scene whose only geometry is a path,
every triangle mesh (vacuously) carries per-vertex color, yet the exported
tree still contains a `materials` key (the path's default black material). -/
theorem materials_key_counterexample :
    (∀ p ∈ (Scene.mk [("p", Geom.path exPath)]).geometry, p.2.meshColoredIf) ∧
    (create_gltf_structure ⟨[("p", Geom.path exPath)]⟩ exGraph false).1.materials?
      = some [default_material] := by
  exact ⟨by decide, by decide⟩

/-- Witness for `materials_key_behaviour` at concrete scenes. -/
theorem materials_key_behaviour_witness :
    (create_gltf_structure ⟨[("m", Geom.mesh exMesh)]⟩ exGraph false).1.materials?
      = none ∧
    ∃ mi prim,
      (create_gltf_structure ⟨[("m", Geom.mesh exMeshNC)]⟩ exGraph
        false).1.meshes[(0 : Nat)]? =
        some { name := some "m", primitives := [prim]
               extras_units := exMeshNC.units } ∧
      prim.material = some mi ∧
      ((create_gltf_structure ⟨[("m", Geom.mesh exMeshNC)]⟩ exGraph
        false).1.materials?.getD [])[mi]? = some (mesh_to_material exMeshNC) := by
  constructor
  · exact materials_key_behaviour.1 ⟨[("m", Geom.mesh exMesh)]⟩ exGraph false
      (by decide)
  · exact materials_key_behaviour.2 ⟨[("m", Geom.mesh exMeshNC)]⟩ exGraph false
      0 "m" exMeshNC (by decide) (by decide)

/-! ## C6: the directory export's file map -/

theorem dictSet_fresh [DecidableEq α] (d : List (α × β)) (k : α) (v : β)
    (h : ∀ kv ∈ d, kv.1 ≠ k) : dictSet d k v = d ++ [(k, v)] := by
  induction d with
  | nil => rfl
  | cons kv t ih =>
    simp only [dictSet, if_neg (h kv (by simp)), List.cons_append]
    rw [ih fun x hx => h x (by simp [hx])]

theorem mesh_bin_inj (a b : String)
    (h : "mesh_" ++ a ++ ".bin" = "mesh_" ++ b ++ ".bin") : a = b := by
  have hd := congrArg String.data h
  simp only [String.data_append, List.append_assoc] at hd
  have h1 := (List.append_inj hd (by rfl)).2
  have h2 := (List.append_inj' h1 (by rfl)).1
  exact String.ext h2

theorem mesh_bin_ne_model (n : String) :
    ("mesh_" ++ n ++ ".bin") ≠ "model.gltf" := by
  intro h
  have hd := congrArg String.data h
  simp only [String.data_append, List.append_assoc] at hd
  have h1 : ("mesh_".data ++ (n.data ++ ".bin".data))[1]? = some 'e' := by
    rw [List.getElem?_append_left (by decide)]
    decide
  rw [hd] at h1
  exact absurd h1 (by decide)

/-- For a scene of uncolored triangle meshes, the buffer items are one
index chunk and one vertex chunk per mesh, in scene order. -/
theorem create_items_uncolored (geoms : List (String × Geom)) :
    (∀ p ∈ geoms, p.2.uncoloredMesh) →
    ∀ (t : TreeB) (items : List (List Nat)),
      (create_items false geoms t items).2 = items ++ expItemsU geoms := by
  induction geoms with
  | nil => intro _ t items; simp [create_items, expItemsU]
  | cons p rest ih =>
    intro h t items
    obtain ⟨name, g⟩ := p
    cases g with
    | mesh m =>
      have hu : m.vertexColors = none := h (name, Geom.mesh m) (by simp)
      have hstep : create_items false ((name, Geom.mesh m) :: rest) t items =
          create_items false rest (append_mesh m name t items false).1
            (append_mesh m name t items false).2 := rfl
      rw [hstep, ih (fun q hq => h q (by simp [hq]))]
      simp [append_mesh, hu, expItemsU]
    | path pa =>
      exact absurd (h (name, Geom.path pa) (by simp))
        (by simp [Geom.uncoloredMesh])

theorem expItemsU_length (geoms : List (String × Geom))
    (h : ∀ p ∈ geoms, p.2.uncoloredMesh) :
    (expItemsU geoms).length = 2 * geoms.length := by
  induction geoms with
  | nil => rfl
  | cons p rest ih =>
    obtain ⟨name, g⟩ := p
    cases g with
    | mesh m =>
      simp only [expItemsU, List.length_cons]
      rw [ih fun q hq => h q (by simp [hq])]
      omega
    | path pa =>
      exact absurd (h (name, Geom.path pa) (by simp))
        (by simp [Geom.uncoloredMesh])

theorem zip_range_pairsOf (geoms : List (String × Geom)) :
    ∀ s : Nat,
      (((List.range geoms.length).map fun j => 2 * j + s).zip
        (geoms.map Prod.fst)) = pairsOf s geoms := by
  induction geoms with
  | nil => intro s; rfl
  | cons p rest ih =>
    intro s
    simp only [List.length_cons, List.range_succ_eq_map, List.map_cons,
      List.map_map, List.zip_cons_cons, pairsOf, Nat.mul_zero, Nat.zero_add]
    congr 1
    have hfn : ((fun j => 2 * j + s) ∘ fun j => j + 1) =
        fun j => 2 * j + (s + 2) := by
      funext j
      simp only [Function.comp_apply]
      ring
    rw [hfn, ih (s + 2)]

/-- The `export_gltf` loop over a scene of uncolored triangle meshes:
each geometry yields exactly one `mesh_<name>.bin` file holding its index
chunk followed by its vertex chunk. -/
theorem gltfLoop_uncolored (items : List (List Nat)) :
    ∀ (geoms : List (String × Geom)) (i : Nat) (bufs : List BufferRec)
      (views : List BufferView) (files : List (String × List Nat)),
      (∀ p ∈ geoms, p.2.uncoloredMesh) →
      (geoms.map Prod.fst).Nodup →
      items.drop i = expItemsU geoms →
      (∀ kv ∈ files, ∀ p ∈ geoms, kv.1 ≠ "mesh_" ++ p.1 ++ ".bin") →
      ∃ bufs' views',
        gltfLoop items (pairsOf i geoms) bufs views files =
          .ok (bufs', views', files ++ geoms.map meshBinFile) := by
  intro geoms
  induction geoms with
  | nil =>
    intro i bufs views files _ _ _ _
    exact ⟨bufs, views, by simp [gltfLoop, pairsOf]⟩
  | cons p rest ih =>
    intro i bufs views files h hnodup hdrop hfresh
    obtain ⟨name, g⟩ := p
    cases g with
    | mesh m =>
      have hu : m.vertexColors = none := h (name, Geom.mesh m) (by simp)
      have hit0 : items[i]? = some (byte_pad (facesBytes m)) := by
        have := List.getElem?_drop items i 0
        rw [hdrop] at this
        simpa [expItemsU] using this.symm
      have hit1 : items[i + 1]? = some (byte_pad (vertBytes m)) := by
        have := List.getElem?_drop items i 1
        rw [hdrop] at this
        simpa [expItemsU] using this.symm
      have hdrop2 : items.drop (i + 2) = expItemsU rest := by
        have : items.drop (i + 2) = (items.drop i).drop 2 := by
          rw [List.drop_drop]
        rw [this, hdrop]
        simp [expItemsU]
      have hname : name ∉ rest.map Prod.fst := by
        simp only [List.map_cons, List.nodup_cons] at hnodup
        exact hnodup.1
      have hfresh' : ∀ kv ∈ dictSet files ("mesh_" ++ name ++ ".bin")
          (byte_pad (facesBytes m) ++ byte_pad (vertBytes m)),
          ∀ q ∈ rest, kv.1 ≠ "mesh_" ++ q.1 ++ ".bin" := by
        rw [dictSet_fresh files _ _
          (fun kv hkv => hfresh kv hkv (name, Geom.mesh m) (by simp))]
        intro kv hkv q hq
        rcases List.mem_append.mp hkv with hkv | hkv
        · exact hfresh kv hkv q (by simp [hq])
        · simp only [List.mem_singleton] at hkv
          subst hkv
          intro hcontra
          have : name = q.1 := mesh_bin_inj _ _ hcontra
          exact hname (this ▸ List.mem_map_of_mem Prod.fst hq)
      obtain ⟨bufs', views', hrun⟩ := ih (i + 2) _ _ _
        (fun q hq => h q (by simp [hq]))
        (by simp only [List.map_cons, List.nodup_cons] at hnodup
            exact hnodup.2)
        hdrop2 hfresh'
      refine ⟨bufs', views', ?_⟩
      show gltfLoop items ((i, name) :: pairsOf (i + 2) rest) bufs views files = _
      unfold gltfLoop
      rw [hit0, hit1]
      dsimp only
      rw [hrun, dictSet_fresh files _ _
        (fun kv hkv => hfresh kv hkv (name, Geom.mesh m) (by simp))]
      simp [meshBinFile, List.append_assoc]
    | path pa =>
      exact absurd (h (name, Geom.path pa) (by simp))
        (by simp [Geom.uncoloredMesh])

/-- C6 (amended).  For every scene in which every geometry is a triangle mesh
without per-vertex colors (so each geometry contributes exactly its index
chunk and its vertex chunk), `export_gltf` returns the per-geometry files
`mesh_<name>.bin` — each geometry's index-buffer chunk followed by its
vertex-buffer chunk — followed by `model.gltf` (the serialized document), and
both chunks of each geometry are individually 4-byte aligned.  (As literally
stated, for every scene, the claim is false: geometries contributing a number
of chunks other than two desynchronize the loop's fixed pairing; see
`export_gltf_chunk_pairing_counterexample`.) -/
theorem export_gltf_files (jd : Doc → List Nat) (scene : Scene) (g : GraphGltf)
    (h : ∀ p ∈ scene.geometry, p.2.uncoloredMesh)
    (hnodup : (scene.geometry.map Prod.fst).Nodup) :
    (∃ doc, export_gltf jd scene g =
      .ok (scene.geometry.map meshBinFile ++ [("model.gltf", jd doc)])) ∧
    (∀ p ∈ scene.geometry, ∀ m : Trimesh, p.2 = Geom.mesh m →
      (byte_pad (facesBytes m)).length % 4 = 0 ∧
      (byte_pad (vertBytes m)).length % 4 = 0) := by
  constructor
  · have hitems : (create_gltf_structure scene g).2 = expItemsU scene.geometry := by
      unfold create_gltf_structure
      dsimp only
      rw [create_items_uncolored scene.geometry h]
      simp
    have hpairs : ((range2 (create_gltf_structure scene g).2.length).zip
        (scene.geometry.map Prod.fst)) = pairsOf 0 scene.geometry := by
      rw [hitems, range2, expItemsU_length scene.geometry h,
        show (2 * scene.geometry.length + 1) / 2 = scene.geometry.length by omega,
        show ((· * 2) : Nat → Nat) = fun j => 2 * j + 0 by funext j; ring]
      exact zip_range_pairsOf scene.geometry 0
    obtain ⟨bufs', views', hrun⟩ := gltfLoop_uncolored
      (create_gltf_structure scene g).2 scene.geometry 0 [] [] [] h hnodup
      (by rw [List.drop_zero, hitems]) (by intro kv hkv; simp at hkv)
    unfold export_gltf
    dsimp only
    rw [hpairs, hrun]
    dsimp only
    rw [List.nil_append, dictSet_fresh _ _ _ ?hfresh]
    case hfresh =>
      intro kv hkv
      obtain ⟨p, _, rfl⟩ := List.mem_map.mp hkv
      obtain ⟨n, gp⟩ := p
      cases gp <;> exact mesh_bin_ne_model n
    exact ⟨_, rfl⟩
  · intro p _ m _
    exact ⟨byte_pad_length_mod _ 4 (by norm_num),
      byte_pad_length_mod _ 4 (by norm_num)⟩

/-- Counterexample to C6 as stated: in a scene of two colored triangle meshes
(three buffer chunks each), the loop's fixed two-chunk pairing slips, and
`mesh_b.bin` holds the first mesh's color chunk followed by the second mesh's
index chunk instead of the second mesh's index and vertex chunks. -/
theorem export_gltf_chunk_pairing_counterexample :
    Except.map (fun files => dictGet files "mesh_b.bin")
      (export_gltf (fun _ => [])
        ⟨[("a", Geom.mesh exMesh), ("b", Geom.mesh exMesh2)]⟩ exGraph) =
      Except.ok (some (byte_pad (colorBytes [(10, 20, 30, 255)]) ++
        byte_pad (facesBytes exMesh2))) ∧
    byte_pad (colorBytes [(10, 20, 30, 255)]) ++ byte_pad (facesBytes exMesh2) ≠
      byte_pad (facesBytes exMesh2) ++ byte_pad (vertBytes exMesh2) := by
  exact ⟨by decide, by decide⟩

/-- Witness for `export_gltf_files` at a one-mesh scene. -/
theorem export_gltf_files_witness :
    (∃ _doc : Doc,
      export_gltf (fun _ => [72]) ⟨[("m", Geom.mesh exMeshNC)]⟩ exGraph =
        .ok ([("m", Geom.mesh exMeshNC)].map meshBinFile ++
          [("model.gltf", [72])])) ∧
    (byte_pad (facesBytes exMeshNC)).length % 4 = 0 := by
  have h := export_gltf_files (fun _ => [72]) ⟨[("m", Geom.mesh exMeshNC)]⟩
    exGraph (by decide) (by decide)
  refine ⟨?_, (h.2 ("m", Geom.mesh exMeshNC) (by decide) exMeshNC rfl).1⟩
  obtain ⟨doc, hd⟩ := h.1
  exact ⟨doc, hd⟩

/-! ## C1: GLB round trip for colored triangle-mesh scenes -/

theorem decode_chunks (k : Nat) (hk : 0 < k) (vals : List Nat)
    (h : ∀ v ∈ vals, v < 256 ^ k) :
    (chunkList k ((vals.map (bytesLE k)).flatten)).map leOfBytes = vals := by
  rw [chunkList_flatten k hk _ (by
    intro r hr
    obtain ⟨v, _, rfl⟩ := List.mem_map.mp hr
    exact bytesLE_length k v)]
  rw [List.map_map]
  have : ∀ v ∈ vals, (leOfBytes ∘ bytesLE k) v = id v := by
    intro v hv
    simp only [Function.comp_apply, leOfBytes_bytesLE, id_eq]
    exact Nat.mod_eq_of_lt (h v hv)
  rw [List.map_congr_left this, List.map_id]

theorem bytesFlatten_length (k : Nat) (vals : List Nat) :
    ((vals.map (bytesLE k)).flatten).length = k * vals.length := by
  induction vals with
  | nil => simp
  | cons v rest ih =>
    simp only [List.map_cons, List.flatten_cons, List.length_append,
      bytesLE_length, ih, List.length_cons]
    ring

theorem flatMap3_bytes (k : Nat) (l : List (Nat × Nat × Nat)) :
    l.flatMap (fun f => bytesLE k f.1 ++ bytesLE k f.2.1 ++ bytesLE k f.2.2) =
      ((l.flatMap fun f => [f.1, f.2.1, f.2.2]).map (bytesLE k)).flatten := by
  induction l with
  | nil => rfl
  | cons f rest ih =>
    simp only [List.append_assoc] at ih
    simp only [List.flatMap_cons, List.map_append, List.map_cons, List.map_nil,
      List.flatten_append, List.flatten_cons, List.flatten_nil,
      List.append_assoc, List.append_nil]
    rw [ih]

theorem flatMap4_bytes (k : Nat) (l : List (Nat × Nat × Nat × Nat)) :
    l.flatMap (fun c => bytesLE k c.1 ++ bytesLE k c.2.1 ++ bytesLE k c.2.2.1 ++
        bytesLE k c.2.2.2) =
      ((l.flatMap fun c => [c.1, c.2.1, c.2.2.1, c.2.2.2]).map (bytesLE k)).flatten := by
  induction l with
  | nil => rfl
  | cons c rest ih =>
    simp only [List.append_assoc] at ih
    simp only [List.flatMap_cons, List.map_append, List.map_cons, List.map_nil,
      List.flatten_append, List.flatten_cons, List.flatten_nil,
      List.append_assoc, List.append_nil]
    rw [ih]

theorem flatMap3_length (l : List (Nat × Nat × Nat)) :
    (l.flatMap fun f => ([f.1, f.2.1, f.2.2] : List Nat)).length = 3 * l.length := by
  induction l with
  | nil => rfl
  | cons f rest ih =>
    simp only [List.flatMap_cons, List.length_append, ih, List.length_cons,
      List.length_nil]
    ring

theorem flatMap4_length (l : List (Nat × Nat × Nat × Nat)) :
    (l.flatMap fun c => ([c.1, c.2.1, c.2.2.1, c.2.2.2] : List Nat)).length =
      4 * l.length := by
  induction l with
  | nil => rfl
  | cons c rest ih =>
    simp only [List.flatMap_cons, List.length_append, ih, List.length_cons,
      List.length_nil]
    ring

theorem facesBytes_flatten (m : Trimesh) :
    facesBytes m = ((facesFlat m).map (bytesLE 4)).flatten :=
  flatMap3_bytes 4 m.faces

theorem vertBytes_flatten (m : Trimesh) :
    vertBytes m = ((vertsFlat m).map (bytesLE 4)).flatten :=
  flatMap3_bytes 4 m.vertices

theorem colorBytes_flatten (cols : List (Nat × Nat × Nat × Nat)) :
    colorBytes cols = ((colorsFlat cols).map (bytesLE 1)).flatten :=
  flatMap4_bytes 1 cols

theorem facesBytes_length (m : Trimesh) :
    (facesBytes m).length = 4 * (3 * m.faces.length) := by
  rw [facesBytes_flatten, bytesFlatten_length]
  unfold facesFlat
  rw [flatMap3_length]

theorem vertBytes_length (m : Trimesh) :
    (vertBytes m).length = 4 * (3 * m.vertices.length) := by
  rw [vertBytes_flatten, bytesFlatten_length]
  unfold vertsFlat
  rw [flatMap3_length]

theorem colorBytes_length (cols : List (Nat × Nat × Nat × Nat)) :
    (colorBytes cols).length = 4 * cols.length := by
  rw [colorBytes_flatten, bytesFlatten_length]
  unfold colorsFlat
  rw [flatMap4_length]
  ring

theorem byte_pad_facesBytes (m : Trimesh) :
    byte_pad (facesBytes m) = facesBytes m :=
  byte_pad_of_aligned _ _ (by rw [facesBytes_length]; omega)

theorem byte_pad_vertBytes (m : Trimesh) :
    byte_pad (vertBytes m) = vertBytes m :=
  byte_pad_of_aligned _ _ (by rw [vertBytes_length]; omega)

theorem byte_pad_colorBytes (cols : List (Nat × Nat × Nat × Nat)) :
    byte_pad (colorBytes cols) = colorBytes cols :=
  byte_pad_of_aligned _ _ (by rw [colorBytes_length]; omega)

theorem readChunksAux_done (stream : List Nat) (total pos : Nat)
    (acc : List (List Nat)) (fuel : Nat) (h : ¬pos < total) :
    readChunksAux stream total fuel pos acc = .ok acc := by
  cases fuel <;> simp [readChunksAux, h]

theorem readChunksAux_step (stream : List Nat) (total pos : Nat)
    (acc : List (List Nat)) (fuel : Nat) (hpos : pos < total)
    (hlen : ¬((stream.drop pos).take 8).length < 8)
    (ctype_eq : ¬leOfBytes (((stream.drop pos).take 8).drop 4) ≠ magic_bin)
    (hclen : ¬((stream.drop (pos + 8)).take
        (leOfBytes (((stream.drop pos).take 8).take 4))).length ≠
      leOfBytes (((stream.drop pos).take 8).take 4)) :
    readChunksAux stream total (fuel + 1) pos acc =
      readChunksAux stream total fuel
        (pos + 8 + leOfBytes (((stream.drop pos).take 8).take 4))
        (acc ++ [(stream.drop (pos + 8)).take
          (leOfBytes (((stream.drop pos).take 8).take 4))]) := by
  conv_lhs => unfold readChunksAux
  rw [if_pos hpos, if_neg hlen, if_neg ctype_eq, if_neg hclen]

/-- Parsing the GLB container produced by `export_glb`'s byte assembly
recovers the JSON document and the single binary chunk. -/
theorem load_glb_chunks_glbAssemble (jp : List Nat → Option Doc)
    (json data : List Nat) (doc : Doc)
    (hparse : jp (padContent json) = some doc)
    (hfit : (padContent json).length + data.length + 28 < 4294967296) :
    load_glb_chunks jp (glbAssemble json data) = .ok (doc, [data]) := by
  have e32 : (256 : Nat) ^ 4 = 4294967296 := by norm_num
  set C := padContent json with hC
  set T := C.length + data.length + 28 with hT
  set s := glbAssemble json data with hs
  have hstream : s =
      [bytesLE 4 magic_gltf, bytesLE 4 2, bytesLE 4 T, bytesLE 4 C.length,
        bytesLE 4 magic_json].flatten ++
      (C ++ ((bytesLE 4 data.length ++ bytesLE 4 magic_bin) ++ data)) := by
    rw [hs, glbAssemble_eq]
    simp only [List.flatten_cons, List.flatten_nil, List.append_assoc,
      List.append_nil]
  have hflen : ([bytesLE 4 magic_gltf, bytesLE 4 2, bytesLE 4 T,
      bytesLE 4 C.length, bytesLE 4 magic_json].flatten).length = 20 := by
    simp [bytesLE_length]
  have htake20 : s.take 20 =
      [bytesLE 4 magic_gltf, bytesLE 4 2, bytesLE 4 T, bytesLE 4 C.length,
        bytesLE 4 magic_json].flatten := by
    rw [hstream]
    exact List.take_left' hflen
  have hdrop20 : s.drop 20 =
      C ++ ((bytesLE 4 data.length ++ bytesLE 4 magic_bin) ++ data) := by
    rw [hstream]
    exact List.drop_left' hflen
  have hlen20 : (s.take 20).length = 20 := by rw [htake20, hflen]
  have hhead : (chunkList 4 (s.take 20)).map leOfBytes =
      [magic_gltf, 2, T, C.length, magic_json] := by
    rw [htake20,
      chunkList_flatten 4 (by norm_num) _ (by
        intro r hr
        simp only [List.mem_cons, List.not_mem_nil, or_false] at hr
        rcases hr with rfl | rfl | rfl | rfl | rfl <;> exact bytesLE_length 4 _)]
    simp only [List.map_cons, List.map_nil, leOfBytes_bytesLE, e32]
    rw [Nat.mod_eq_of_lt (by norm_num [magic_gltf]),
      Nat.mod_eq_of_lt (by norm_num),
      Nat.mod_eq_of_lt (by omega),
      Nat.mod_eq_of_lt (by omega),
      Nat.mod_eq_of_lt (by norm_num [magic_json])]
  have hjson : (s.drop 20).take C.length = C := by
    rw [hdrop20]
    exact List.take_left' rfl
  unfold load_glb_chunks
  dsimp only
  rw [if_neg (by rw [hlen20]; norm_num)]
  rw [hhead]
  simp only [List.getElem?_cons_zero, List.getElem?_cons_succ]
  rw [if_neg (by simp), if_neg (by simp), if_neg (by simp [magic_json, magic_gltf])]
  rw [hjson, hparse]
  have hCloop : readChunks s T (20 + C.length) [] = .ok [data] := by
    unfold readChunks
    have hdroppos : s.drop (20 + C.length) =
        (bytesLE 4 data.length ++ bytesLE 4 magic_bin) ++ data := by
      have : s = ([bytesLE 4 magic_gltf, bytesLE 4 2, bytesLE 4 T,
          bytesLE 4 C.length, bytesLE 4 magic_json].flatten ++ C) ++
          ((bytesLE 4 data.length ++ bytesLE 4 magic_bin) ++ data) := by
        rw [hstream]
        simp [List.append_assoc]
      rw [this]
      exact List.drop_left' (by rw [List.length_append, hflen])
    have hhd : (s.drop (20 + C.length)).take 8 =
        bytesLE 4 data.length ++ bytesLE 4 magic_bin := by
      rw [hdroppos]
      exact List.take_left' (by simp [bytesLE_length])
    have hhdtake : ((s.drop (20 + C.length)).take 8).take 4 =
        bytesLE 4 data.length := by
      rw [hhd]
      exact List.take_left' (bytesLE_length 4 _)
    have hhddrop : ((s.drop (20 + C.length)).take 8).drop 4 =
        bytesLE 4 magic_bin := by
      rw [hhd]
      exact List.drop_left' (bytesLE_length 4 _)
    have hdlen : leOfBytes (((s.drop (20 + C.length)).take 8).take 4) =
        data.length := by
      rw [hhdtake, leOfBytes_bytesLE, e32]
      exact Nat.mod_eq_of_lt (by omega)
    have hdropdata : s.drop (20 + C.length + 8) = data := by
      have : s = (([bytesLE 4 magic_gltf, bytesLE 4 2, bytesLE 4 T,
          bytesLE 4 C.length, bytesLE 4 magic_json].flatten ++ C) ++
          (bytesLE 4 data.length ++ bytesLE 4 magic_bin)) ++ data := by
        rw [hstream]
        simp [List.append_assoc]
      rw [this]
      exact List.drop_left' (by
        simp only [List.length_append, hflen, bytesLE_length]
        try omega)
    have hcdata : (s.drop (20 + C.length + 8)).take
        (leOfBytes (((s.drop (20 + C.length)).take 8).take 4)) = data := by
      rw [hdlen, hdropdata]
      exact List.take_length data
    rw [readChunksAux_step s T (20 + C.length) [] T
      (by omega)
      (by rw [hhd]; simp [bytesLE_length])
      (by rw [hhddrop, leOfBytes_bytesLE, e32]
          simp [Nat.mod_eq_of_lt, magic_bin])
      (by rw [hcdata, hdlen]; simp)]
    rw [hdlen, hdropdata, List.take_length]
    exact readChunksAux_done s T (20 + C.length + 8 + data.length) [data] T
      (by omega)
  rw [show (C.length : Nat) = C.length from rfl] at hCloop
  rw [hCloop]

theorem resolveViews_buildViews (items : List (List Nat)) :
    ∀ pre : List Nat,
      resolveViews (buildViews 0 items pre.length) [pre ++ items.flatten] =
        .ok items := by
  induction items with
  | nil => intro pre; rfl
  | cons it rest ih =>
    intro pre
    show resolveViews
      ((⟨0, pre.length, it.length⟩ : BufferView) ::
        buildViews 0 rest (pre.length + it.length))
      [pre ++ (it :: rest).flatten] = _
    unfold resolveViews
    dsimp only
    simp only [List.getElem?_cons_zero]
    have hslice : ((pre ++ (it :: rest).flatten).drop pre.length).take it.length
        = it := by
      rw [List.drop_left' rfl]
      simp only [List.flatten_cons]
      exact List.take_left' rfl
    rw [hslice, if_pos rfl]
    have hrec : resolveViews (buildViews 0 rest (pre.length + it.length))
        [pre ++ (it :: rest).flatten] = .ok rest := by
      have h1 : pre.length + it.length = (pre ++ it).length := by
        simp
      have h2 : pre ++ (it :: rest).flatten = (pre ++ it) ++ rest.flatten := by
        simp [List.flatten_cons, List.append_assoc]
      rw [h1, h2]
      exact ih (pre ++ it)
    rw [hrec]

theorem resolveViews_buildViews_zero (items : List (List Nat)) :
    resolveViews (buildViews 0 items 0) [items.flatten] = .ok items := by
  have := resolveViews_buildViews items []
  simpa using this

theorem resolveAccessor_faces (m : Trimesh) (views : List (List Nat)) (k : Nat)
    (hv : views[k]? = some (byte_pad (facesBytes m)))
    (hwf : ∀ x ∈ facesFlat m, x < 4294967296) :
    resolveAccessor
      { bufferView := k, componentType := 5125, count := m.faces.length * 3
        type_ := .SCALAR, byteOffset := none, normalized := false } views =
      .ok { shape := .flat, comps := facesFlat m } := by
  have hlen : (facesBytes m).length = 4 * (m.faces.length * 3) * 1 := by
    rw [facesBytes_length]; ring
  have hflatlen : (facesFlat m).length = 3 * m.faces.length := by
    unfold facesFlat; rw [flatMap3_length]
  unfold resolveAccessor accessorRaw
  rw [hv]
  dsimp only [typeSize, shapeOf, perCount, Option.getD]
  rw [byte_pad_facesBytes, List.drop_zero, ← hlen, List.take_length]
  rw [if_pos (by rw [hlen]; omega)]
  rw [facesBytes_flatten, decode_chunks 4 (by norm_num) _ (by
    intro v hv'
    have := hwf v hv'
    norm_num
    omega)]
  dsimp only
  rw [if_pos (by dsimp [GArr.pyLen]; rw [hflatlen]; ring)]

theorem resolveAccessor_verts (m : Trimesh) (views : List (List Nat)) (k : Nat)
    (hv : views[k]? = some (byte_pad (vertBytes m)))
    (hwf : ∀ x ∈ vertsFlat m, x < 4294967296) :
    resolveAccessor
      { bufferView := k, componentType := 5126, count := m.vertices.length
        type_ := .VEC3, byteOffset := some 0, normalized := false } views =
      .ok { shape := .vec 3, comps := vertsFlat m } := by
  have hlen : (vertBytes m).length = 4 * m.vertices.length * 3 := by
    rw [vertBytes_length]; ring
  have hflatlen : (vertsFlat m).length = 3 * m.vertices.length := by
    unfold vertsFlat; rw [flatMap3_length]
  unfold resolveAccessor accessorRaw
  rw [hv]
  dsimp only [typeSize, shapeOf, perCount, Option.getD]
  rw [byte_pad_vertBytes, List.drop_zero, ← hlen, List.take_length]
  rw [if_pos (by rw [hlen]; omega)]
  rw [vertBytes_flatten, decode_chunks 4 (by norm_num) _ (by
    intro v hv'
    have := hwf v hv'
    norm_num
    omega)]
  rw [if_pos (by rw [hflatlen]; omega)]
  dsimp only
  rw [if_pos (by dsimp [GArr.pyLen]; rw [hflatlen]; omega)]

theorem resolveAccessor_colors (cols : List (Nat × Nat × Nat × Nat))
    (views : List (List Nat)) (k cnt : Nat)
    (hv : views[k]? = some (byte_pad (colorBytes cols)))
    (hcnt : cols.length = cnt)
    (hwf : ∀ x ∈ colorsFlat cols, x < 256) :
    resolveAccessor
      { bufferView := k, componentType := 5121, count := cnt
        type_ := .VEC4, byteOffset := some 0, normalized := true } views =
      .ok { shape := .vec 4, comps := colorsFlat cols } := by
  have hlen : (colorBytes cols).length = 1 * cnt * 4 := by
    rw [colorBytes_length, ← hcnt]; ring
  have hflatlen : (colorsFlat cols).length = 4 * cnt := by
    unfold colorsFlat; rw [flatMap4_length, hcnt]
  unfold resolveAccessor accessorRaw
  rw [hv]
  dsimp only [typeSize, shapeOf, perCount, Option.getD]
  rw [byte_pad_colorBytes, List.drop_zero, ← hlen, List.take_length]
  rw [if_pos (by omega)]
  rw [colorBytes_flatten, decode_chunks 1 (by norm_num) _ (by
    intro v hv'
    have := hwf v hv'
    norm_num
    omega)]
  rw [if_pos (by rw [hflatlen]; omega)]
  dsimp only
  rw [if_pos (by dsimp [GArr.pyLen]; rw [hflatlen]; omega)]

/-- Resolving the accessors of an exported colored-mesh scene recovers the
face, vertex and color arrays. -/
theorem resolveAccessors_colored (geoms : List (String × Geom)) :
    ∀ (views : List (List Nat)) (k : Nat),
      (∀ p ∈ geoms, p.2.coloredWf) → views.drop k = expItemsC geoms →
      resolveAccessors (expAccsC geoms k) views = .ok (expArrsC geoms) := by
  induction geoms with
  | nil => intro views k _ _; rfl
  | cons p rest ih =>
    intro views k h hdrop
    obtain ⟨name, g⟩ := p
    cases g with
    | mesh m =>
      have hwf : m.wfColored := h (name, Geom.mesh m) (by simp)
      obtain ⟨hwff, hwfv, hsome, hclen, hwfc⟩ := hwf
      have hview : ∀ j : Nat, views[k + j]? = (views.drop k)[j]? :=
        fun j => (List.getElem?_drop views k j).symm
      have hv0 : views[k]? = some (byte_pad (facesBytes m)) := by
        have := hview 0
        rw [Nat.add_zero] at this
        rw [this, hdrop]
        rfl
      have hv1 : views[k + 1]? = some (byte_pad (vertBytes m)) := by
        rw [hview 1, hdrop]
        rfl
      have hv2 : views[k + 2]? = some (byte_pad (colorBytes
          (m.vertexColors.getD []))) := by
        rw [hview 2, hdrop]
        simp [expItemsC, meshItemsC]
      have hdrop3 : views.drop (k + 3) = expItemsC rest := by
        have h1 : views.drop (k + 3) = (views.drop k).drop 3 := by
          rw [List.drop_drop]
        rw [h1, hdrop]
        rfl
      show resolveAccessors
        (({ bufferView := k, componentType := 5125
            count := m.faces.length * 3, type_ := .SCALAR, byteOffset := none
            normalized := false } : Accessor) ::
          ({ bufferView := k + 1, componentType := 5126
             count := m.vertices.length, type_ := .VEC3, byteOffset := some 0
             normalized := false } : Accessor) ::
          ({ bufferView := k + 2, componentType := 5121
             count := m.vertices.length, type_ := .VEC4, byteOffset := some 0
             normalized := true } : Accessor) :: expAccsC rest (k + 3)) views = _
      unfold resolveAccessors
      rw [resolveAccessor_faces m views k hv0 hwff]
      unfold resolveAccessors
      rw [resolveAccessor_verts m views (k + 1) hv1 hwfv]
      unfold resolveAccessors
      rw [resolveAccessor_colors (m.vertexColors.getD []) views (k + 2)
        m.vertices.length hv2 hclen hwfc]
      rw [ih views (k + 3) (fun q hq => h q (by simp [hq])) hdrop3]
      rfl
    | path pa =>
      exact absurd (h (name, Geom.path pa) (by simp))
        (by simp [Geom.coloredWf])

theorem load_prims_meshRecC (access : List GArr) (mats : List PBRMaterial)
    (m : Trimesh) (name : String) (a : Nat)
    (hidx : access[a]? = some { shape := .flat, comps := facesFlat m })
    (hpos : access[a + 1]? = some { shape := .vec 3, comps := vertsFlat m }) :
    load_prims access mats (some name) 1 m.units 0
      (meshRecC m name a).primitives = .ok [(name, roundtripKwargs m)] := by
  have hrows : reshapeRows3 (facesFlat m) =
      .ok (m.faces.map fun f => [f.1, f.2.1, f.2.2]) := by
    unfold reshapeRows3
    have hflatlen : (facesFlat m).length = 3 * m.faces.length := by
      unfold facesFlat; rw [flatMap3_length]
    rw [if_pos (by rw [hflatlen]; omega)]
    have hfl : facesFlat m = (m.faces.map fun f =>
        ([f.1, f.2.1, f.2.2] : List Nat)).flatten := by
      unfold facesFlat
      induction m.faces with
      | nil => rfl
      | cons f rest ih => simp [List.flatMap_cons, ih]
    rw [hfl, chunkList_flatten 3 (by norm_num) _ (by
      intro r hr
      obtain ⟨f, _, rfl⟩ := List.mem_map.mp hr
      rfl)]
  show load_prims access mats (some name) 1 m.units 0
    [{ position := some (a + 1), color0 := some (a + 2), normal := none
       texcoord0 := none, indices := some a, mode := some 4
       material := none }] = _
  unfold load_prims
  rw [if_neg (by simp)]
  dsimp only
  rw [hidx]
  dsimp only
  rw [hrows]
  dsimp only
  rw [hpos]
  dsimp only
  rw [if_neg (by norm_num)]
  rfl

/-- The mesh loop on an exported colored-mesh scene: one geometry per mesh
record, accumulated into the dict, with one generated name per mesh index. -/
theorem load_meshes_colored (geoms : List (String × Geom)) :
    ∀ (access : List GArr) (mats : List PBRMaterial) (a : Nat)
      (dict : List (String × MeshKwargs)),
      (∀ p ∈ geoms, p.2.coloredWf) → access.drop a = expArrsC geoms →
      load_meshes access mats (expMeshesC geoms a) dict =
        .ok (expDictC geoms dict, geoms.map fun p => [p.1]) := by
  induction geoms with
  | nil => intro access mats a dict _ _; rfl
  | cons p rest ih =>
    intro access mats a dict h hdrop
    obtain ⟨name, g⟩ := p
    cases g with
    | mesh m =>
      have hacc : ∀ j : Nat, access[a + j]? = (access.drop a)[j]? :=
        fun j => (List.getElem?_drop access a j).symm
      have ha0 : access[a]? = some { shape := .flat, comps := facesFlat m } := by
        have := hacc 0
        rw [Nat.add_zero] at this
        rw [this, hdrop]
        simp [expArrsC, meshArrsC]
      have ha1 : access[a + 1]? =
          some { shape := .vec 3, comps := vertsFlat m } := by
        rw [hacc 1, hdrop]
        simp [expArrsC, meshArrsC]
      have hdrop3 : access.drop (a + 3) = expArrsC rest := by
        have h1 : access.drop (a + 3) = (access.drop a).drop 3 := by
          rw [List.drop_drop]
        rw [h1, hdrop]
        simp [expArrsC, meshArrsC]
      show load_meshes access mats (meshRecC m name a :: expMeshesC rest (a + 3))
        dict = _
      unfold load_meshes
      have hname : (meshRecC m name a).name = some name := rfl
      have hlen1 : (meshRecC m name a).primitives.length = 1 := rfl
      have hunits : (meshRecC m name a).extras_units = m.units := rfl
      rw [hname, hlen1, hunits,
        load_prims_meshRecC access mats m name a ha0 ha1]
      dsimp only [List.foldl]
      rw [ih access mats (a + 3) (dictSet dict name (roundtripKwargs m))
        (fun q hq => h q (by simp [hq])) hdrop3]
      rfl
    | path pa =>
      exact absurd (h (name, Geom.path pa) (by simp))
        (by simp [Geom.coloredWf])

theorem expDictC_fresh (geoms : List (String × Geom)) :
    ∀ dict : List (String × MeshKwargs),
      (∀ p ∈ geoms, p.2.coloredWf) →
      (∀ kv ∈ dict, kv.1 ∉ geoms.map Prod.fst) →
      (geoms.map Prod.fst).Nodup →
      expDictC geoms dict = dict ++ geoms.map fun p => (p.1, geomKwargs p.2) := by
  induction geoms with
  | nil => intro dict _ _ _; simp [expDictC]
  | cons p rest ih =>
    intro dict h hfresh hnodup
    obtain ⟨name, g⟩ := p
    cases g with
    | mesh m =>
      show expDictC rest (dictSet dict name (roundtripKwargs m)) = _
      rw [dictSet_fresh dict name (roundtripKwargs m) (by
        intro kv hkv heq
        exact hfresh kv hkv (by simp [heq]))]
      rw [ih (dict ++ [(name, roundtripKwargs m)])
        (fun q hq => h q (by simp [hq]))
        (by
          intro kv hkv
          rcases List.mem_append.mp hkv with hkv | hkv
          · intro hmem
            exact hfresh kv hkv (by simp [hmem])
          · simp only [List.mem_singleton] at hkv
            subst hkv
            simp only [List.map_cons, List.nodup_cons] at hnodup
            exact hnodup.1)
        (by
          simp only [List.map_cons, List.nodup_cons] at hnodup
          exact hnodup.2)]
      simp [geomKwargs, List.append_assoc]
    | path pa =>
      exact absurd (h (name, Geom.path pa) (by simp))
        (by simp [Geom.coloredWf])

/-- `_create_gltf_structure`'s loop on a colored-mesh scene
(`include_normals=False`): one mesh record and three accessors per mesh, and
three buffer chunks per mesh. -/
theorem create_items_colored (geoms : List (String × Geom)) :
    (∀ p ∈ geoms, p.2.coloredWf) →
    ∀ (t : TreeB) (items : List (List Nat)),
      create_items false geoms t items =
        ({ t with meshes := t.meshes ++ expMeshesC geoms t.accessors.length,
                  accessors := t.accessors ++ expAccsC geoms items.length },
         items ++ expItemsC geoms) := by
  induction geoms with
  | nil =>
    intro _ t items
    simp [create_items, expMeshesC, expAccsC, expItemsC]
  | cons p rest ih =>
    intro h t items
    obtain ⟨name, g⟩ := p
    cases g with
    | mesh m =>
      have hwf : m.wfColored := h (name, Geom.mesh m) (by simp)
      obtain ⟨cols, hc⟩ := Option.isSome_iff_exists.mp hwf.2.2.1
      have hstep : create_items false ((name, Geom.mesh m) :: rest) t items =
          create_items false rest (append_mesh m name t items false).1
            (append_mesh m name t items false).2 := rfl
      rw [hstep, ih (fun q hq => h q (by simp [hq]))]
      simp only [append_mesh, hc, Bool.false_eq_true, if_false, List.append_nil,
        Prod.mk.injEq, TreeB.mk.injEq, List.length_append, List.length_cons,
        List.length_nil]
      refine ⟨⟨trivial, trivial, ?_, ?_, trivial, trivial⟩, ?_⟩
      · simp [expAccsC, meshAccsC, List.append_assoc]
      · simp [expMeshesC, meshRecC, List.append_assoc]
      · simp [expItemsC, meshItemsC, hc, List.append_assoc]
    | path pa =>
      exact absurd (h (name, Geom.path pa) (by simp))
        (by simp [Geom.coloredWf])

theorem load_glb_of_chunks_ok (jp : List Nat → Option Doc) (pil : Bool)
    (uid : Nat → String) (rand : String) (fuel : Nat) (stream : List Nat)
    (header : Doc) (buffers : List (List Nat))
    (h : load_glb_chunks jp stream = .ok (header, buffers)) :
    load_glb jp pil uid rand fuel stream =
      read_buffers pil uid rand fuel header buffers := by
  unfold load_glb
  rw [h]

/-- A successful `_read_buffers` run determines its geometry dict from the
view, accessor and mesh stages alone (the graph traversal only adds edges). -/
theorem read_buffers_geometry (pil : Bool) (uid : Nat → String) (rand : String)
    (fuel : Nat) (header : Doc) (buffers : List (List Nat)) (res : SceneKwargs)
    (h : read_buffers pil uid rand fuel header buffers = .ok res) :
    ∃ views access meshes primLists,
      resolveViews header.bufferViews buffers = .ok views ∧
      resolveAccessors header.accessors views = .ok access ∧
      load_meshes access (parse_materials pil header) header.meshes [] =
        .ok (meshes, primLists) ∧
      res.geometry = meshes := by
  cases hv : resolveViews header.bufferViews buffers with
  | error e =>
    unfold read_buffers at h
    rw [hv] at h
    exact absurd h (by simp)
  | ok views =>
    cases ha : resolveAccessors header.accessors views with
    | error e =>
      unfold read_buffers at h
      rw [hv] at h
      dsimp only at h
      rw [ha] at h
      exact absurd h (by simp)
    | ok access =>
      cases hm : load_meshes access (parse_materials pil header)
          header.meshes [] with
      | error e =>
        unfold read_buffers at h
        rw [hv] at h
        dsimp only at h
        rw [ha] at h
        dsimp only at h
        rw [hm] at h
        exact absurd h (by simp)
      | ok r =>
        obtain ⟨meshes, primLists⟩ := r
        refine ⟨views, access, meshes, primLists, rfl, ha, hm, ?_⟩
        unfold read_buffers at h
        rw [hv] at h
        dsimp only at h
        rw [ha] at h
        dsimp only at h
        rw [hm] at h
        dsimp only at h
        split at h
        · exact absurd h (by simp)
        · split at h
          · exact absurd h (by simp)
          · injection h with h
            rw [← h]

/-- C1.  For every scene containing only (well-formed) triangle meshes with
per-vertex colors, decoding the bytes produced by the GLB export recovers the
same geometries: the same number (the names are the dict keys, in order), and
for each geometry the same face rows and the same vertex float32 bit patterns
(equality after float32 truncation).  `jd`/`jp` are the external JSON codec
(hypothesis: parsing the padded serialized document gives the document back),
and the size hypothesis keeps the uint32 header fields from wrapping. -/
theorem glb_roundtrip (jd : Doc → List Nat) (jp : List Nat → Option Doc)
    (pil : Bool) (uid : Nat → String) (rand : String) (fuel : Nat)
    (scene : Scene) (g : GraphGltf) (res : SceneKwargs)
    (hcol : ∀ p ∈ scene.geometry, p.2.coloredWf)
    (hnodup : (scene.geometry.map Prod.fst).Nodup)
    (hparse : jp (padContent (jd (export_glb_tree scene g false).1)) =
      some (export_glb_tree scene g false).1)
    (hfit : (padContent (jd (export_glb_tree scene g false).1)).length +
      (export_glb_tree scene g false).2.length + 28 < 4294967296)
    (hres : load_glb jp pil uid rand fuel (export_glb jd scene g false) =
      Except.ok res) :
    res.geometry = scene.geometry.map fun p => (p.1, geomKwargs p.2) := by
  have hcreate : create_gltf_structure scene g false =
      ({ scene := g.scene, scenes := g.scenes
         accessors := expAccsC scene.geometry 0
         meshes := expMeshesC scene.geometry 0, materials? := none
         nodes := g.nodes }, expItemsC scene.geometry) := by
    unfold create_gltf_structure
    dsimp only
    rw [create_items_colored scene.geometry hcol]
    simp
  have hdoc : export_glb_tree scene g false =
      ({ scene := g.scene, scenes := g.scenes
         accessors := expAccsC scene.geometry 0
         bufferViews := buildViews 0 (expItemsC scene.geometry) 0
         buffers := [{ byteLength := (expItemsC scene.geometry).flatten.length
                       uri := none }]
         meshes := expMeshesC scene.geometry 0, materials? := none
         nodes := g.nodes }, (expItemsC scene.geometry).flatten) := by
    unfold export_glb_tree
    dsimp only
    rw [hcreate]
  have hglb : export_glb jd scene g false =
      glbAssemble (jd (export_glb_tree scene g false).1)
        (export_glb_tree scene g false).2 := rfl
  have hres2 : read_buffers pil uid rand fuel
      (export_glb_tree scene g false).1 [(export_glb_tree scene g false).2] =
      Except.ok res :=
    (load_glb_of_chunks_ok jp pil uid rand fuel (export_glb jd scene g false)
      (export_glb_tree scene g false).1 [(export_glb_tree scene g false).2]
      (by rw [hglb]
          exact load_glb_chunks_glbAssemble jp _ _ _ hparse hfit)).symm.trans
      hres
  have hfields := congrArg Prod.fst hdoc
  have hdata2 : (export_glb_tree scene g false).2 =
      (expItemsC scene.geometry).flatten := congrArg Prod.snd hdoc
  have hviews : resolveViews (export_glb_tree scene g false).1.bufferViews
      [(export_glb_tree scene g false).2] = .ok (expItemsC scene.geometry) := by
    have h1 : (export_glb_tree scene g false).1.bufferViews =
        buildViews 0 (expItemsC scene.geometry) 0 := by rw [hfields]
    rw [h1, hdata2]
    exact resolveViews_buildViews_zero _
  have haccs : resolveAccessors (export_glb_tree scene g false).1.accessors
      (expItemsC scene.geometry) = .ok (expArrsC scene.geometry) := by
    have h1 : (export_glb_tree scene g false).1.accessors =
        expAccsC scene.geometry 0 := by rw [hfields]
    rw [h1]
    exact resolveAccessors_colored scene.geometry _ 0 hcol (by
      rw [List.drop_zero])
  have hmeshes : load_meshes (expArrsC scene.geometry)
      (parse_materials pil (export_glb_tree scene g false).1)
      (export_glb_tree scene g false).1.meshes [] =
      .ok (expDictC scene.geometry [], scene.geometry.map fun p => [p.1]) := by
    have h1 : (export_glb_tree scene g false).1.meshes =
        expMeshesC scene.geometry 0 := by rw [hfields]
    rw [h1]
    exact load_meshes_colored scene.geometry _ _ 0 [] hcol (by
      rw [List.drop_zero])
  obtain ⟨views, access, meshes, primLists, h1, h2, h3, h4⟩ :=
    read_buffers_geometry _ _ _ _ _ _ _ hres2
  rw [hviews] at h1
  injection h1 with h1
  subst h1
  rw [haccs] at h2
  injection h2 with h2
  subst h2
  rw [hmeshes] at h3
  injection h3 with h3
  rw [Prod.mk.injEq] at h3
  obtain ⟨h3a, h3b⟩ := h3
  rw [h4, ← h3a]
  rw [expDictC_fresh scene.geometry [] hcol (by simp) hnodup]
  simp

theorem glb_roundtrip_witness :
    ∃ res : SceneKwargs,
      load_glb wJp false exUid "R" 9 (export_glb wJd wScene exGraph false) =
        Except.ok res ∧
      res.geometry = wScene.geometry.map (fun p => (p.1, geomKwargs p.2)) := by
  cases h : load_glb wJp false exUid "R" 9
      (export_glb wJd wScene exGraph false) with
  | error e =>
      have hok : (load_glb wJp false exUid "R" 9
          (export_glb wJd wScene exGraph false)).isOk = true := by decide
      rw [h] at hok
      simp [Except.isOk, Except.toBool] at hok
  | ok res =>
      exact ⟨res, rfl,
        glb_roundtrip wJd wJp false exUid "R" 9 wScene exGraph res
          (by decide) (by decide) (by decide) (by decide) h⟩
